import Mathlib

/-!
# ESP32Sampler: a shallow embedding of `ESP32Sampler.cpp` / `ESP32Sampler.h`

The engine `ESPSampler` is embedded as a record of its data members plus the
function-local static of `getConfig`.  Every member function becomes a function
on that record.  The collaborators that live outside the repository (the I2S raw
source `_adc`, the one-shot ADC `adc1_get_raw`, the ESP-IDF calibration
`esp_adc_cal_characterize` / `esp_adc_cal_raw_to_voltage`) are parameters.

Machine integers are `Nat` / `Int` with explicit wrap-around: `size_t` and
`uint32_t` are 32 bits wide on the ESP32, `sample_t` is `int16_t`.  The width of
`time_t` is fixed by the toolchain (32-bit signed `long` up to ESP-IDF 4.x, 64-bit
signed from ESP-IDF 5.0) and is a parameter of the embedding.
-/

namespace ESP32Sampler

/-! ## Machine arithmetic -/

/-- Modulus of the 32-bit unsigned types `size_t` and `uint32_t`. -/
def WORD : Nat := 2 ^ 32

/-- Conversion to `sample_t` (`int16_t`): two's-complement narrowing of an integer. -/
def toSample (x : Int) : Int := (x + 32768) % 65536 - 32768

/-- The statement `cnt -= sizeof(sample_t)` on the `size_t` variable `cnt`
(`sizeof(sample_t) = 2`): unsigned subtraction, wrapping below zero. -/
def decCnt (cnt : Nat) : Nat := if 2 ≤ cnt then cnt - 2 else cnt + WORD - 2

/-! ## Binary floating point (values only)

`SamplerConfig.vmax` is a `float`; the thresholds in `adc1_setup` are `double`
literals.  A finite binary floating-point number is kept as `mant * 2 ^ exp`.
Only rounding to nearest (ties to even) of positive values in the normal range
is needed. -/

/-- A finite binary floating-point value `mant * 2 ^ exp`. -/
structure BinFloat where
  mant : Int
  exp : Int
deriving DecidableEq, Repr

/-- Comparison `x <= y` of two binary floating-point values, by bringing both
mantissas to the smaller exponent. -/
def BinFloat.le (x y : BinFloat) : Prop :=
  x.mant * 2 ^ (x.exp - min x.exp y.exp).toNat ≤ y.mant * 2 ^ (y.exp - min x.exp y.exp).toNat

instance : LE BinFloat := ⟨BinFloat.le⟩

instance (x y : BinFloat) : Decidable (x ≤ y) :=
  inferInstanceAs (Decidable
    (x.mant * 2 ^ (x.exp - min x.exp y.exp).toNat ≤ y.mant * 2 ^ (y.exp - min x.exp y.exp).toNat))

/-- Scale the fraction `a / b` by powers of two until `2^(p-1) <= a / b < 2^p`,
tracking the exponent. -/
def normalizeBin (p : Nat) : Nat → Nat → Nat → Int → Nat × Nat × Int
  | 0, a, b, e => (a, b, e)
  | fuel + 1, a, b, e =>
    if a < 2 ^ (p - 1) * b then normalizeBin p fuel (2 * a) b (e - 1)
    else if 2 ^ p * b ≤ a then normalizeBin p fuel a (2 * b) (e + 1)
    else (a, b, e)

/-- Round the non-negative fraction `a / b` to the nearest binary floating-point
number with `p` significant bits, ties to even. -/
def roundBin (p : Nat) (a b : Nat) : BinFloat :=
  if a = 0 then ⟨0, 0⟩ else
  let r := normalizeBin p 4096 a b 0
  let n := r.1 / r.2.1
  let rem := r.1 % r.2.1
  if r.2.1 < 2 * rem ∨ (2 * rem = r.2.1 ∧ n % 2 = 1) then ⟨n + 1, r.2.2⟩ else ⟨n, r.2.2⟩

/-- The `double` denoted by the decimal literal `a / b` (e.g. `1.1` is `11 / 10`). -/
def doubleLit (a b : Nat) : BinFloat := roundBin 53 a b

/-- Conversion of a (non-negative) `double` to `float`, as in the initialisation of
the `float` field `vmax` from a `double` expression. -/
def floatOfDouble (d : BinFloat) : BinFloat :=
  roundBin 24 (d.mant.toNat * 2 ^ d.exp.toNat) (2 ^ (-d.exp).toNat)

/-! ## Configuration (`ESP32Sampler.h`) -/

/-- Type `enum SamplerMode { SMODE_DC, SMODE_AC }`. -/
inductive SamplerMode
  | SMODE_DC
  | SMODE_AC
deriving DecidableEq, Repr

/-- Type `struct SamplerConfig`.  `pin` is the GPIO number, the `size_t` fields are
naturals (below `2^32` in the program). -/
structure SamplerConfig where
  pin : Int
  vmax : BinFloat
  samplefrequency : Nat
  numsamples : Nat
  mode : SamplerMode
  multisample : Nat
  extrabuffers : Nat
deriving DecidableEq, Repr

/-- Macro `#define SMP_DEFAULT_VMAX 3.3` (a `double` literal). -/
def SMP_DEFAULT_VMAX : BinFloat := doubleLit 33 10
/-- Macro `#define SMP_DEFAULT_FREQUENCY 44100`. -/
def SMP_DEFAULT_FREQUENCY : Nat := 44100
/-- Macro `#define SMP_DEFAULT_SAMPLES 1024`. -/
def SMP_DEFAULT_SAMPLES : Nat := 1024
/-- Macro `#define SMP_MAXBUFFERSIZE 1024`. -/
def SMP_MAXBUFFERSIZE : Nat := 1024
/-- Macro `#define SMP_DEFAULTPIN GPIO_NUM_34`. -/
def SMP_DEFAULTPIN : Int := 34
/-- Macro `#define SMP_DEFAULT_MODE SMODE_DC`. -/
def SMP_DEFAULT_MODE : SamplerMode := SamplerMode.SMODE_DC

/-- Member function `ESPSampler::defaultConfig`: the initialiser of the static `defcfg`. -/
def defaultConfig : SamplerConfig :=
  { pin := SMP_DEFAULTPIN
    vmax := floatOfDouble SMP_DEFAULT_VMAX
    samplefrequency := SMP_DEFAULT_FREQUENCY
    numsamples := SMP_DEFAULT_SAMPLES
    mode := SMP_DEFAULT_MODE
    multisample := 2
    extrabuffers := 0 }

/-! ## Calibration and the engine record -/

/-- ESP-IDF `adc_atten_t`, the four attenuations used by `adc1_setup`. -/
inductive adc_atten_t
  | ADC_ATTEN_0db
  | ADC_ATTEN_2_5db
  | ADC_ATTEN_6db
  | ADC_ATTEN_11db
deriving DecidableEq, Repr

/-- ESP-IDF `adc1_channel_t`. -/
inductive adc1_channel_t
  | ADC1_CHANNEL_0
  | ADC1_CHANNEL_1
  | ADC1_CHANNEL_2
  | ADC1_CHANNEL_3
  | ADC1_CHANNEL_4
  | ADC1_CHANNEL_5
  | ADC1_CHANNEL_6
  | ADC1_CHANNEL_7
deriving DecidableEq, Repr

/-- ESP-IDF `esp_adc_cal_characteristics_t`: the fields the program looks at. -/
structure esp_adc_cal_characteristics_t where
  vref : Nat
  coeff_a : Nat
  coeff_b : Nat
deriving DecidableEq, Repr

/-- Type `time_t` as the toolchain defines it: the 32-bit signed `long` (ESP-IDF up to 4.x,
Arduino-ESP32 up to 2.x) or the 64-bit signed type (ESP-IDF from 5.0). -/
inductive time_t
  | long32
  | long64
deriving DecidableEq, Repr

/-- The smallest value of `time_t`. -/
def TIME_MIN : time_t → Int
  | time_t.long32 => -2147483648
  | time_t.long64 => -9223372036854775808

/-- Conversion of an integer value to `time_t`: the value itself when it fits, and the
two's-complement narrowing otherwise. -/
def toTime : time_t → Int → Int
  | time_t.long32, x => (x + 2147483648) % 4294967296 - 2147483648
  | time_t.long64, x => (x + 9223372036854775808) % 18446744073709551616 - 9223372036854775808

/-- Expression `dmasz / _bufsz`, a `time_t` divided by a `size_t`.  With the 64-bit `time_t`
the `size_t` operand is converted to `time_t` and the division is signed (truncating); with
the 32-bit `time_t` (`long`) both operands are converted to `unsigned long` and the division
is unsigned. -/
def divTimeBySize : time_t → Int → Nat → Int
  | time_t.long32, a, b => (((a % 4294967296).toNat / b : Nat) : Int)
  | time_t.long64, a, b => Int.tdiv a (b : Int)

/-- The platform outside the repository: the `time_t` of the toolchain, and the ESP-IDF
calibration library, `esp_adc_cal_characterize` (per attenuation) and
`esp_adc_cal_raw_to_voltage` (raw code and characteristics to millivolts, a `uint32_t`). -/
structure Hw where
  esp_adc_cal_characterize : adc_atten_t → esp_adc_cal_characteristics_t
  esp_adc_cal_raw_to_voltage : Nat → esp_adc_cal_characteristics_t → Nat
  time : time_t

/-- The data members of `class ESPSampler`, and `rconfig`, the function-local
static of `getConfig` (`none` until its initialiser has run). -/
structure ESPSampler where
  AcZero : Int
  CollectTime : Int
  _bufsz : Nat
  _running : Bool
  Config : SamplerConfig
  _adc_chars : esp_adc_cal_characteristics_t
  rconfig : Option SamplerConfig
deriving DecidableEq, Repr

/-- The singleton right after construction: default member initialisers of the
header, everything else zero-initialised (static storage). -/
def ESPSampler.init : ESPSampler :=
  { AcZero := 2048
    CollectTime := 0
    _bufsz := 0
    _running := false
    Config :=
      { pin := SMP_DEFAULTPIN
        vmax := floatOfDouble SMP_DEFAULT_VMAX
        samplefrequency := SMP_DEFAULT_FREQUENCY
        numsamples := SMP_DEFAULT_SAMPLES
        mode := SMP_DEFAULT_MODE
        multisample := 2
        extrabuffers := 0 }
    _adc_chars := ⟨0, 0, 0⟩
    rconfig := none }

/-- Member function `ESPSampler::setConfig`: `Config = newConfig;`. -/
def setConfig (st : ESPSampler) (newConfig : SamplerConfig) : ESPSampler :=
  { st with Config := newConfig }

/-- Member function `ESPSampler::getConfig`: `static SamplerConfig rconfig = Config; return rconfig;`.
The initialiser of a function-local static runs on the first call only. -/
def getConfig (st : ESPSampler) : SamplerConfig × ESPSampler :=
  match st.rconfig with
  | some r => (r, st)
  | none => (st.Config, { st with rconfig := some st.Config })

/-! ## `adc1_setup` -/

/-- The `if (Config.vmax <= 1.1) ... else if (<= 1.5) ... else if (<= 2.2) ... else`
chain of `adc1_setup`: the `float` field is compared with `double` literals. -/
def selectAtten (vmax : BinFloat) : adc_atten_t :=
  if vmax ≤ doubleLit 11 10 then adc_atten_t.ADC_ATTEN_0db
  else if vmax ≤ doubleLit 15 10 then adc_atten_t.ADC_ATTEN_2_5db
  else if vmax ≤ doubleLit 22 10 then adc_atten_t.ADC_ATTEN_6db
  else adc_atten_t.ADC_ATTEN_11db

/-- The `switch (pin)` of `adc1_setup`.  There is no `default:` label, so for any
other pin `channel` keeps its indeterminate value (`none`). -/
def pinChannel (pin : Int) : Option adc1_channel_t :=
  if pin = 32 then some adc1_channel_t.ADC1_CHANNEL_4
  else if pin = 33 then some adc1_channel_t.ADC1_CHANNEL_5
  else if pin = 34 then some adc1_channel_t.ADC1_CHANNEL_6
  else if pin = 35 then some adc1_channel_t.ADC1_CHANNEL_7
  else if pin = 36 then some adc1_channel_t.ADC1_CHANNEL_0
  else if pin = 37 then some adc1_channel_t.ADC1_CHANNEL_1
  else if pin = 38 then some adc1_channel_t.ADC1_CHANNEL_2
  else if pin = 39 then some adc1_channel_t.ADC1_CHANNEL_3
  else none

/-- Member function `ESPSampler::adc1_setup`: chooses the attenuation from `Config.vmax`, resolves
the channel, stores the characterisation in `_adc_chars`, and performs one
discarded `adc1_get_raw`.  Returns the channel and the new engine record. -/
def adc1_setup (hw : Hw) (st : ESPSampler) (pin : Int) : Option adc1_channel_t × ESPSampler :=
  (pinChannel pin,
    { st with _adc_chars := hw.esp_adc_cal_characterize (selectAtten st.Config.vmax) })

/-! ## `Begin` and `End` -/

/-- The fields of AudioTools' `AnalogConfig` that `Begin` sets. -/
structure AnalogConfig where
  channels : Nat
  buffer_size : Nat
  buffer_count : Nat
  sample_rate : Nat
  use_apll : Nat
  pin1 : Int
deriving DecidableEq, Repr

/-- What `Begin` leaves behind: the engine record, the configuration handed to
`_adc.begin`, the resolved channel and the number of one-shot raw reads. -/
structure BeginResult where
  st : ESPSampler
  AConfig : AnalogConfig
  channel : Option adc1_channel_t
  rawReads : Nat
deriving DecidableEq, Repr

/-- Statement `time_t dmasz = Config.numsamples * Config.multisample * 2;` the product is
computed in `size_t` (wrapping at `2^32`) and then converted to `time_t`: unchanged with the
64-bit `time_t`, negative with the 32-bit `time_t` when the product is `2^31` or more. -/
def dmaSize (hw : Hw) (cfg : SamplerConfig) : Int :=
  toTime hw.time ((((cfg.numsamples * cfg.multisample) % WORD * 2) % WORD : Nat) : Int)

/-- Statement `_bufsz = dmasz < SMP_MAXBUFFERSIZE ? dmasz : SMP_MAXBUFFERSIZE;` the comparison
and the selected value are of type `time_t`, the assignment converts to `size_t`. -/
def chunkSize (hw : Hw) (cfg : SamplerConfig) : Nat :=
  ((if dmaSize hw cfg < (SMP_MAXBUFFERSIZE : Int) then dmaSize hw cfg
    else (SMP_MAXBUFFERSIZE : Int)) % (WORD : Int)).toNat

/-- Member function `ESPSampler::Begin`.  `startOk` is the result of `_adc.begin(AConfig)`, which
the code discards.  `none` stands for an integer division by zero
(`Config.samplefrequency == 0` or `_bufsz == 0`).  `CollectTime` is the `size_t` quotient
converted to `time_t`; `buffer_count` is `1 + dmasz / _bufsz`, a value between 1 and
`2^22 + 1` that no conversion changes. -/
def Begin (hw : Hw) (startOk : Bool) (st : ESPSampler) : Option BeginResult :=
  let sfreq := (st.Config.samplefrequency * st.Config.multisample) % WORD
  let dmasz := dmaSize hw st.Config
  let bufsz := chunkSize hw st.Config
  if st.Config.samplefrequency = 0 then none
  else
    let collectTime := toTime hw.time
      ((((1000 * st.Config.numsamples) % WORD) / st.Config.samplefrequency : Nat) : Int)
    let r := adc1_setup hw st st.Config.pin
    if bufsz = 0 then none
    else
      let _ := startOk
      some
        { st := { r.2 with _bufsz := bufsz, CollectTime := collectTime, _running := true }
          AConfig :=
            { channels := 1
              buffer_size := bufsz
              buffer_count := (1 + divTimeBySize hw.time dmasz bufsz).toNat
              sample_rate := sfreq
              use_apll := 0
              pin1 := st.Config.pin }
          channel := r.1
          rawReads := 1 }

/-- Member function `ESPSampler::End`: `_adc.end(); _running = false;`. -/
def End (st : ESPSampler) : ESPSampler := { st with _running := false }

/-- Member function `ESPSampler::routeVref`: reports whether `adc_vref_to_gpio` returned `ESP_OK`;
no data member changes. -/
def routeVref (vrefOk : Bool) (st : ESPSampler) : Bool × ESPSampler := (vrefOk, st)

/-! ## `Collect` -/

/-- The I2S raw source behind `_adc.readBytes(_samplebuffer, _bufsz)`: the bytes
delivered by the `k`-th call made during one `Collect`, given the requested
maximum.  The byte count the call returns is the length of the list. -/
abbrev RawSource := Nat → Nat → List Nat

/-- The value of `*rawptr` as `int16_t`: the little-endian cell at cell index `p` of the
bytes the last `readBytes` delivered.  `none` when the cell is not covered by
those bytes (stale or out-of-bounds memory, which is not modelled). -/
def readCell (chunk : List Nat) (p : Nat) : Option Int :=
  if 2 * p + 1 < chunk.length then
    some (toSample ((chunk.getD (2 * p) 0 % 256 + 256 * (chunk.getD (2 * p + 1) 0 % 256) : Nat) : Int))
  else none

/-- The expression `(uint32_t)(x & 0xFFF)`: the low 12 bits of a two's-complement integer. -/
def mask12 (x : Int) : Nat := (x % 4096).toNat

/-- The pull cursor of `Collect`: the locals `cnt` and `rawptr`, the bytes of the
current chunk, and two counters kept for the statements below: how many times
`readBytes` was called and how many raw codes were dereferenced. -/
structure Reader where
  cnt : Nat
  rawptr : Nat
  chunk : List Nat
  pulled : Nat
  codes : Nat

/-- Statement `if (cnt == 0) { cnt = _adc.readBytes(_samplebuffer, _bufsz); rawptr = (sample_t *)_samplebuffer; }`. -/
def refill (src : RawSource) (bufsz : Nat) (r : Reader) : Reader :=
  if r.cnt = 0 then
    { cnt := (src r.pulled bufsz).length
      rawptr := 0
      chunk := src r.pulled bufsz
      pulled := r.pulled + 1
      codes := r.codes }
  else r

/-- First half of the loop body: refill if needed, then `*rawptr++ & 0xFFF` and
`cnt -= sizeof(sample_t)`.  Returns the masked raw code and the new cursor. -/
def fetch (src : RawSource) (bufsz : Nat) (r : Reader) : Option (Nat × Reader) :=
  match readCell (refill src bufsz r).chunk (refill src bufsz r).rawptr with
  | none => none
  | some x =>
    some (mask12 x,
      { cnt := decCnt (refill src bufsz r).cnt
        rawptr := (refill src bufsz r).rawptr + 1
        chunk := (refill src bufsz r).chunk
        pulled := (refill src bufsz r).pulled
        codes := (refill src bufsz r).codes + 1 })

/-- The accumulating locals of `Collect` and the caller's `Buffer`.  `numread` and
`c` cannot wrap before the comparisons that bound them succeed. -/
structure Acc where
  numread : Nat
  c : Nat
  avg : Nat
  mavg : Nat
  Buffer : Nat → Int

/-- Second half of the loop body, `mv` being the calibrated reading:
`mavg += mv; if (++c == Config.multisample) { mavg /= c; Buffer[numread++] = (sample_t) mavg;
avg += mavg; c = 0; mavg = 0; }` with `uint32_t` accumulators. -/
def accumulate (m : Nat) (a : Acc) (mv : Nat) : Acc :=
  if a.c + 1 = m then
    { numread := a.numread + 1
      c := 0
      avg := (a.avg + (a.mavg + mv) % WORD / (a.c + 1)) % WORD
      mavg := 0
      Buffer := Function.update a.Buffer a.numread (toSample (((a.mavg + mv) % WORD / (a.c + 1) : Nat) : Int)) }
  else
    { numread := a.numread
      c := a.c + 1
      avg := a.avg
      mavg := (a.mavg + mv) % WORD
      Buffer := a.Buffer }

/-- The loop `while (numread < len) { ... }` of `Collect`, with fuel.  `none` is
either fuel exhaustion or a read outside the delivered bytes. -/
def collectLoop (cal : Nat → Nat) (src : RawSource) (bufsz m len : Nat) :
    Nat → Reader → Acc → Option (Reader × Acc)
  | 0, r, a => if a.numread < len then none else some (r, a)
  | fuel + 1, r, a =>
    if a.numread < len then
      match fetch src bufsz r with
      | none => none
      | some x => collectLoop cal src bufsz m len fuel x.2 (accumulate m a (cal x.1))
    else some (r, a)

/-- The loop `for (cnt = 0; cnt < numread; cnt++) Buffer[cnt] -= AcZero;`, the first
argument being the number of indices already due. -/
def centerLoop (acZero : Int) : Nat → (Nat → Int) → (Nat → Int)
  | 0, B => B
  | k + 1, B =>
    Function.update (centerLoop acZero k B) k (toSample (centerLoop acZero k B k - acZero))

/-- What `Collect` leaves behind: the engine record, the caller's buffer, the final
value of `numread`, the number of `readBytes` calls and of raw codes read.
The elapsed time it returns is not modelled. -/
structure CollectResult where
  st : ESPSampler
  Buffer : Nat → Int
  numread : Nat
  pulled : Nat
  codes : Nat

/-- The calibration transform of the data path:
`esp_adc_cal_raw_to_voltage(code, &_adc_chars)`. -/
def calOf (hw : Hw) (st : ESPSampler) (code : Nat) : Nat :=
  hw.esp_adc_cal_raw_to_voltage code st._adc_chars

/-- Member function `ESPSampler::Collect(Buffer, len)`.  `none` is non-termination within the fuel,
a read outside the delivered bytes, or the division `avg / numread` by zero. -/
def Collect (hw : Hw) (src : RawSource) (fuel : Nat) (st : ESPSampler) (Buffer : Nat → Int)
    (len : Nat) : Option CollectResult :=
  match collectLoop (calOf hw st) src st._bufsz
      st.Config.multisample len fuel ⟨0, 0, [], 0, 0⟩ ⟨0, 0, 0, 0, Buffer⟩ with
  | none => none
  | some ra =>
    if st.Config.mode = SamplerMode.SMODE_AC then
      if ra.2.numread = 0 then none
      else
        some
          { st := { st with AcZero := toSample ((ra.2.avg / ra.2.numread : Nat) : Int) }
            Buffer := centerLoop (toSample ((ra.2.avg / ra.2.numread : Nat) : Int)) ra.2.numread ra.2.Buffer
            numread := ra.2.numread
            pulled := ra.1.pulled
            codes := ra.1.codes }
    else
      some
        { st := st
          Buffer := ra.2.Buffer
          numread := ra.2.numread
          pulled := ra.1.pulled
          codes := ra.1.codes }

/-! ## `Measure` -/

/-- What `Measure` leaves behind: the returned `sample_t`, the number of
`adc1_get_raw` calls made, and the engine record. -/
structure MeasureResult where
  value : Int
  rawReads : Nat
  st : ESPSampler
deriving DecidableEq, Repr

/-- The largest `int` (32 bits), the type of the iteration counter `i` of `Measure`. -/
def INT_MAX : Nat := 2147483647

/-- The loop `do { rawadc += cal(adc1_get_raw(channel)); i++; vTaskDelay(1); duration--; }
while (duration > 0);` with fuel; `k` counts the `adc1_get_raw` calls made so far.
`none` is fuel exhaustion or a signed overflow (of `i++` at `INT_MAX`, of `duration--` at
`tmin`, the smallest `time_t`), which has no defined outcome. -/
def measureLoop (cal : Nat → Nat) (adc : Nat → Nat) (tmin : Int) :
    Nat → Int → Nat → Nat → Nat → Option (Nat × Nat × Nat)
  | 0, _, _, _, _ => none
  | fuel + 1, duration, rawadc, i, k =>
    if INT_MAX ≤ i then none
    else if duration ≤ tmin then none
    else if duration - 1 > 0 then
      measureLoop cal adc tmin fuel (duration - 1) ((rawadc + cal (adc k)) % WORD) (i + 1) (k + 1)
    else some ((rawadc + cal (adc k)) % WORD, i + 1, k + 1)

/-- Member function `ESPSampler::Measure(pin, duration)`.  `adc k` is the value of the `k`-th
`adc1_get_raw` call of this invocation (call 0 is the discarded one inside
`adc1_setup`); `duration` is a value of type `time_t`. -/
def Measure (hw : Hw) (adc : Nat → Nat) (fuel : Nat) (st : ESPSampler) (pin : Int)
    (duration : Int) : Option MeasureResult :=
  if st._running then some ⟨0, 0, st⟩
  else
    match measureLoop (calOf hw (adc1_setup hw st pin).2) adc (TIME_MIN hw.time) fuel duration 0 0 1 with
    | none => none
    | some r => some ⟨toSample ((r.1 / r.2.1 : Nat) : Int), r.2.2, (adc1_setup hw st pin).2⟩

/-! ## Call sequences -/

/-- One call of a public member function, with what the environment supplies to it. -/
inductive Call
  | defaultConfig
  | setConfig (newConfig : SamplerConfig)
  | getConfig
  | Begin (startOk : Bool)
  | End
  | Collect (src : RawSource) (fuel : Nat) (Buffer : Nat → Int) (len : Nat)
  | Measure (adc : Nat → Nat) (fuel : Nat) (pin : Int) (duration : Int)
  | routeVref (vrefOk : Bool)

/-- Whether the call is `End()`. -/
def Call.isEnd : Call → Bool
  | Call.End => true
  | _ => false

/-- Whether the call is `setConfig(...)`. -/
def Call.isSetConfig : Call → Bool
  | Call.setConfig _ => true
  | _ => false

/-- The engine record after one call (`none` if the call has no defined outcome). -/
def exec (hw : Hw) (st : ESPSampler) : Call → Option ESPSampler
  | Call.defaultConfig => some st
  | Call.setConfig c => some (setConfig st c)
  | Call.getConfig => some (getConfig st).2
  | Call.Begin ok => (Begin hw ok st).map fun r => r.st
  | Call.End => some (End st)
  | Call.Collect src fuel B len => (Collect hw src fuel st B len).map fun r => r.st
  | Call.Measure adc fuel pin d => (Measure hw adc fuel st pin d).map fun r => r.st
  | Call.routeVref ok => some (routeVref ok st).2

/-- The engine record after a sequence of calls. -/
def run (hw : Hw) : ESPSampler → List Call → Option ESPSampler
  | st, [] => some st
  | st, c :: cs => (exec hw st c).bind fun st1 => run hw st1 cs


/-! ## Specification-side definitions for `Collect` -/

/-- The bytes of the first `n` chunks delivered during one call, concatenated. -/
def concatChunks (src : RawSource) (bufsz : Nat) : Nat → List Nat
  | 0 => []
  | n + 1 => concatChunks src bufsz n ++ src n bufsz

/-- The masked raw code held by the `k`-th 16-bit little-endian cell of a byte sequence. -/
def codeAt (bs : List Nat) (k : Nat) : Nat :=
  mask12 (toSample ((bs.getD (2 * k) 0 % 256 + 256 * (bs.getD (2 * k + 1) 0 % 256) : Nat) : Int))

/-- The `k`-th 16-bit little-endian cell of a byte sequence, as an unsigned number
(all 16 bits, flag bits included). -/
def cellAt (bs : List Nat) (k : Nat) : Nat :=
  bs.getD (2 * k) 0 % 256 + 256 * (bs.getD (2 * k + 1) 0 % 256)

/-- The mean of the `i`-th group of `m` readings of the stream `g`, as a 32-bit
accumulator computes it: the sum wraps modulo `2^32` before the division. -/
def groupMean (g : Nat → Nat) (m i : Nat) : Nat :=
  (∑ j ∈ Finset.range m, g (i * m + j)) % WORD / m

/-- The calibrated reading of the `k`-th cell of the first `n` chunks of a call. -/
def calStream (hw : Hw) (st : ESPSampler) (src : RawSource) (n : Nat) (k : Nat) : Nat :=
  calOf hw st (codeAt (concatChunks src st._bufsz n) k)

/-- The accumulating locals after `t` readings of the stream `g`. -/
def accRun (m : Nat) (g : Nat → Nat) (a0 : Acc) : Nat → Acc
  | 0 => a0
  | t + 1 => accumulate m (accRun m g a0 t) (g t)

/-- The pull cursor after `t` successful fetches. -/
def readerAt (src : RawSource) (bufsz : Nat) : Nat → Reader
  | 0 => ⟨0, 0, [], 0, 0⟩
  | t + 1 =>
    match fetch src bufsz (readerAt src bufsz t) with
    | some x => x.2
    | none => readerAt src bufsz t

/-- The masked raw code obtained by the `t`-th fetch. -/
def codeStream (src : RawSource) (bufsz : Nat) (t : Nat) : Nat :=
  match fetch src bufsz (readerAt src bufsz t) with
  | some x => x.1
  | none => 0

/-- Every chunk the raw source delivers holds a positive even number of bytes. -/
def EvenChunks (src : RawSource) (bufsz : Nat) : Prop :=
  ∀ k, 0 < (src k bufsz).length ∧ (src k bufsz).length % 2 = 0

/-- Two raw sources that deliver chunks of the same lengths whose 16-bit cells agree on their
low 12 bits (the upper 4 bits of each cell are unconstrained). -/
def SameCodes (src1 src2 : RawSource) (bufsz : Nat) : Prop :=
  ∀ k, (src1 k bufsz).length = (src2 k bufsz).length ∧
    ∀ p, 2 * p + 1 < (src1 k bufsz).length →
      cellAt (src1 k bufsz) p % 4096 = cellAt (src2 k bufsz) p % 4096

/-- Two pull cursors that differ at most in the upper 4 bits of the cells they hold. -/
def ReaderSim (r1 r2 : Reader) : Prop :=
  r1.cnt = r2.cnt ∧ r1.rawptr = r2.rawptr ∧ r1.pulled = r2.pulled ∧ r1.codes = r2.codes ∧
  r1.chunk.length = r2.chunk.length ∧
  ∀ p, 2 * p + 1 < r1.chunk.length → cellAt r1.chunk p % 4096 = cellAt r2.chunk p % 4096

/-- The invariant of the pull cursor after `t` fetches. -/
structure ReaderInv (src : RawSource) (bufsz : Nat) (t : Nat) (r : Reader) : Prop where
  split : ∃ pre, concatChunks src bufsz r.pulled = pre ++ r.chunk ∧ pre.length + 2 * r.rawptr = 2 * t
  bal : 2 * r.rawptr + r.cnt = r.chunk.length
  even : r.chunk.length % 2 = 0
  codes : r.codes = t
  started : r.pulled = 0 ∨ 0 < r.rawptr
  cur : r.pulled ≠ 0 → r.chunk = src (r.pulled - 1) bufsz

/-! ## Sample environments -/

/-- A platform with the 64-bit `time_t` whose calibration library maps every raw code to the
same number of millivolts. -/
def hwUnit : Hw := ⟨fun _ => ⟨1100, 65536, 0⟩, fun raw _ => raw, time_t.long64⟩

/-- The platform `hwUnit` with the 32-bit `time_t`. -/
def hwLegacy : Hw := ⟨fun _ => ⟨1100, 65536, 0⟩, fun raw _ => raw, time_t.long32⟩

/-- A raw source whose chunks are 1024 bytes `0xFF`: every cell holds the code 4095. -/
def srcFull : RawSource := fun _ _ => List.replicate 1024 255

/-- A platform with the 64-bit `time_t` whose calibration library reports 10 mV per raw code
(up to 40950 mV). -/
def hwWide : Hw := ⟨fun _ => ⟨1100, 655360, 0⟩, fun raw _ => 10 * raw, time_t.long64⟩

/-- A raw source whose chunks are the two cells `0x0FFF, 0`. -/
def srcStep : RawSource := fun _ _ => [255, 15, 0, 0]

/-- A one-shot ADC whose every `adc1_get_raw` call returns the code 4095. -/
def adcFull : Nat → Nat := fun _ => 4095

/-- A raw source whose chunks are the four cells `0xF001, 0x1002, 0x8003, 0x0FFF`: the
codes of `srcRamp` under other flag bits. -/
def srcFlagged : RawSource := fun _ _ => [1, 240, 2, 16, 3, 128, 255, 15]

/-- A raw source whose chunks are the four cells `1, 2, 3, 0xFFFF`. -/
def srcRamp : RawSource := fun _ _ => [1, 0, 2, 0, 3, 0, 255, 255]

/-- The engine with the given mode, averaging factor and raw chunk size, everything
else as constructed. -/
def stWith (mode : SamplerMode) (m bufsz : Nat) : ESPSampler :=
  { ESPSampler.init with
    _bufsz := bufsz
    Config := { defaultConfig with mode := mode, multisample := m } }

/-- The engine after `Begin()`, a `setConfig` and a `Collect` of two samples. -/
def stRunning : ESPSampler :=
  { AcZero := 2048
    CollectTime := 23
    _bufsz := 1024
    _running := true
    Config := { defaultConfig with numsamples := 512 }
    _adc_chars := ⟨1100, 65536, 0⟩
    rconfig := none }

/-! ## Lemmas on the accumulator -/

theorem accRun_inv (m' : Nat) (g : Nat → Nat) (B : Nat → Int) :
    ∀ t i c, t = i * (m' + 1) + c → c < m' + 1 →
      (accRun (m' + 1) g ⟨0, 0, 0, 0, B⟩ t).numread = i ∧
      (accRun (m' + 1) g ⟨0, 0, 0, 0, B⟩ t).c = c ∧
      (accRun (m' + 1) g ⟨0, 0, 0, 0, B⟩ t).mavg
        = (∑ j ∈ Finset.range c, g (i * (m' + 1) + j)) % WORD ∧
      (accRun (m' + 1) g ⟨0, 0, 0, 0, B⟩ t).avg
        = (∑ k ∈ Finset.range i, groupMean g (m' + 1) k) % WORD ∧
      ∀ k, (accRun (m' + 1) g ⟨0, 0, 0, 0, B⟩ t).Buffer k
        = if k < i then toSample (groupMean g (m' + 1) k : Nat) else B k := by
  intro t
  induction t with
  | zero =>
    intro i c h hc
    have hc0 : c = 0 := by omega
    have hi0 : i = 0 := by
      rcases Nat.eq_zero_or_pos i with h0 | h0
      · exact h0
      · exfalso
        have : 1 * (m' + 1) ≤ i * (m' + 1) := Nat.mul_le_mul_right _ h0
        omega
    subst hc0; subst hi0
    simp [accRun, WORD]
  | succ t ih =>
    intro i c h hc
    cases c with
    | zero =>
      cases i with
      | zero => simp at h
      | succ i' =>
        have ht : t = i' * (m' + 1) + m' := by
          rw [Nat.succ_mul] at h; omega
        obtain ⟨h1, h2, h3, h4, h5⟩ := ih i' m' ht (by omega)
        have hacc : (accRun (m' + 1) g ⟨0, 0, 0, 0, B⟩ t).c + 1 = m' + 1 := by rw [h2]
        have hsum : ((accRun (m' + 1) g ⟨0, 0, 0, 0, B⟩ t).mavg + g t) % WORD / (m' + 1)
            = groupMean g (m' + 1) i' := by
          rw [h3, Nat.mod_add_mod, groupMean, Finset.sum_range_succ, ← ht]
        simp only [accRun, accumulate, hacc, if_true]
        rw [hsum, h1, h4]
        refine ⟨rfl, trivial, by simp, ?_, ?_⟩
        · rw [Nat.mod_add_mod, Finset.sum_range_succ]
        · intro k
          by_cases hk : k = i'
          · subst hk; simp
          · rw [Function.update_noteq hk, h5 k]
            by_cases hk2 : k < i'
            · have : k < i' + 1 := by omega
              simp [hk2, this]
            · have : ¬ k < i' + 1 := by omega
              simp [hk2, this]
    | succ c' =>
      have ht : t = i * (m' + 1) + c' := by omega
      obtain ⟨h1, h2, h3, h4, h5⟩ := ih i c' ht (by omega)
      have hacc : ¬ ((accRun (m' + 1) g ⟨0, 0, 0, 0, B⟩ t).c + 1 = m' + 1) := by
        rw [h2]; omega
      simp only [accRun, accumulate, hacc, if_false]
      refine ⟨h1, by rw [h2], ?_, h4, h5⟩
      rw [h3, Nat.mod_add_mod, Finset.sum_range_succ, ← ht]


/-! ## Lemmas on the pull cursor -/

theorem codeAt_append (bs ext : List Nat) (k : Nat) (h : 2 * k + 1 < bs.length) :
    codeAt (bs ++ ext) k = codeAt bs k := by
  unfold codeAt
  rw [List.getD_append bs ext 0 (2 * k) (by omega),
    List.getD_append bs ext 0 (2 * k + 1) h]

theorem codeAt_split (pre chunk : List Nat) (p t : Nat) (h : pre.length + 2 * p = 2 * t) :
    codeAt (pre ++ chunk) t
      = mask12 (toSample ((chunk.getD (2 * p) 0 % 256 + 256 * (chunk.getD (2 * p + 1) 0 % 256) : Nat) : Int)) := by
  unfold codeAt
  rw [List.getD_append_right pre chunk 0 (2 * t) (by omega),
    List.getD_append_right pre chunk 0 (2 * t + 1) (by omega)]
  have e1 : 2 * t - pre.length = 2 * p := by omega
  have e2 : 2 * t + 1 - pre.length = 2 * p + 1 := by omega
  rw [e1, e2]

theorem ReaderInv.length_eq {src : RawSource} {bufsz t : Nat} {r : Reader}
    (h : ReaderInv src bufsz t r) :
    (concatChunks src bufsz r.pulled).length = 2 * t + r.cnt := by
  obtain ⟨pre, hp, hl⟩ := h.split
  have := h.bal
  rw [hp, List.length_append]
  omega

theorem fetch_step {src : RawSource} {bufsz t : Nat} {r : Reader}
    (hsrc : EvenChunks src bufsz) (h : ReaderInv src bufsz t r) :
    ∃ r', fetch src bufsz r = some (codeAt (concatChunks src bufsz r'.pulled) t, r') ∧
      ReaderInv src bufsz (t + 1) r' ∧
      ∃ ext, concatChunks src bufsz r'.pulled = concatChunks src bufsz r.pulled ++ ext := by
  have hlen := h.length_eq
  obtain ⟨pre, hp, hl⟩ := h.split
  have hbal := h.bal
  have hev := h.even
  by_cases hc : r.cnt = 0
  · -- a new chunk is pulled
    obtain ⟨hpos, heven⟩ := hsrc r.pulled
    have hge : 2 ≤ (src r.pulled bufsz).length := by omega
    have hcell : 2 * 0 + 1 < (src r.pulled bufsz).length := by omega
    refine ⟨⟨(src r.pulled bufsz).length - 2, 1, src r.pulled bufsz, r.pulled + 1, r.codes + 1⟩,
      ?_, ?_, ?_⟩
    · have hcode := codeAt_split (concatChunks src bufsz r.pulled) (src r.pulled bufsz) 0 t
        (by omega)
      simp only [fetch, refill, hc, if_true, readCell, hcell, concatChunks, hcode, decCnt, hge]
    · refine ⟨⟨concatChunks src bufsz r.pulled, rfl, by simp only; omega⟩, by simp only; omega,
        heven, by simp only; rw [h.codes], Or.inr (by simp), ?_⟩
      intro _
      simp
    · exact ⟨src r.pulled bufsz, rfl⟩
  · -- the current chunk still holds a cell
    have hge : 2 ≤ r.cnt := by omega
    have hcell : 2 * r.rawptr + 1 < r.chunk.length := by omega
    refine ⟨⟨r.cnt - 2, r.rawptr + 1, r.chunk, r.pulled, r.codes + 1⟩, ?_, ?_, ?_⟩
    · have hcode := codeAt_split pre r.chunk r.rawptr t hl
      simp only [fetch, refill, hc, if_false, readCell, hcell, if_true, hp, hcode, decCnt, hge]
    · refine ⟨⟨pre, hp, by simp only; omega⟩, by simp only; omega, hev,
        by simp only; rw [h.codes], ?_, h.cur⟩
      exact Or.inr (by simp)
    · exact ⟨[], by simp⟩

theorem readerAt_inv {src : RawSource} {bufsz : Nat} (hsrc : EvenChunks src bufsz) :
    ∀ t, ReaderInv src bufsz t (readerAt src bufsz t) ∧
      fetch src bufsz (readerAt src bufsz t)
        = some (codeStream src bufsz t, readerAt src bufsz (t + 1)) ∧
      ∀ k < t, codeStream src bufsz k
        = codeAt (concatChunks src bufsz (readerAt src bufsz t).pulled) k := by
  intro t
  induction t with
  | zero =>
    have h0 : ReaderInv src bufsz 0 (readerAt src bufsz 0) :=
      ⟨⟨[], by simp [readerAt, concatChunks], by simp [readerAt]⟩, by simp [readerAt],
        by simp [readerAt], by simp [readerAt], Or.inl (by simp [readerAt]),
        by simp [readerAt]⟩
    obtain ⟨r', hf, _, _⟩ := fetch_step hsrc h0
    refine ⟨h0, ?_, by intro k hk; omega⟩
    simp only [codeStream, readerAt] at hf ⊢
    rw [hf]
  | succ t ih =>
    obtain ⟨hinv, hfetch, hhist⟩ := ih
    obtain ⟨r', hf, hinv', ext, hext⟩ := fetch_step hsrc hinv
    have hr' : readerAt src bufsz (t + 1) = r' := by
      rw [hfetch] at hf
      exact (Prod.mk.inj (Option.some.inj hf)).2
    have hcs : codeStream src bufsz t = codeAt (concatChunks src bufsz r'.pulled) t := by
      rw [hfetch] at hf
      exact (Prod.mk.inj (Option.some.inj hf)).1
    rw [hr']
    obtain ⟨r'', hf2, _, _⟩ := fetch_step hsrc hinv'
    refine ⟨hinv', ?_, ?_⟩
    · have e1 : codeStream src bufsz (t + 1) = (codeAt (concatChunks src bufsz r''.pulled) (t + 1)) := by
        simp only [codeStream, hr', hf2]
      have e2 : readerAt src bufsz (t + 1 + 1) = r'' := by
        simp only [readerAt] at hr' ⊢
        simp only [hr', hf2]
      rw [e1, e2, hf2]
    · intro k hk
      rcases Nat.lt_succ_iff_lt_or_eq.mp hk with hlt | heq
      · rw [hhist k hlt, hext, codeAt_append]
        have := hinv.length_eq
        omega
      · rw [heq, hcs]


/-! ## The loop of `Collect` -/

theorem collectLoop_run {cal : Nat → Nat} {src : RawSource} {bufsz : Nat} (m' len : Nat)
    (B : Nat → Int) (hsrc : EvenChunks src bufsz) :
    ∀ k fuel t, t + k = len * (m' + 1) → k ≤ fuel →
      collectLoop cal src bufsz (m' + 1) len fuel (readerAt src bufsz t)
          (accRun (m' + 1) (fun s => cal (codeStream src bufsz s)) ⟨0, 0, 0, 0, B⟩ t)
        = some (readerAt src bufsz (len * (m' + 1)),
            accRun (m' + 1) (fun s => cal (codeStream src bufsz s)) ⟨0, 0, 0, 0, B⟩
              (len * (m' + 1))) := by
  intro k
  induction k with
  | zero =>
    intro fuel t ht _
    have htT : t = len * (m' + 1) := by omega
    subst htT
    have hn := (accRun_inv m' (fun s => cal (codeStream src bufsz s)) B (len * (m' + 1)) len 0
      (by omega) (by omega)).1
    cases fuel with
    | zero => simp [collectLoop, hn]
    | succ f => simp [collectLoop, hn]
  | succ k ih =>
    intro fuel t ht hfuel
    obtain ⟨f, rfl⟩ : ∃ f, fuel = f + 1 := ⟨fuel - 1, by omega⟩
    have hlt : t < (m' + 1) * len := by rw [Nat.mul_comm]; omega
    have hn := (accRun_inv m' (fun s => cal (codeStream src bufsz s)) B t (t / (m' + 1))
      (t % (m' + 1)) (Nat.div_add_mod' t (m' + 1)).symm (Nat.mod_lt _ (by omega))).1
    have hnum : (accRun (m' + 1) (fun s => cal (codeStream src bufsz s)) ⟨0, 0, 0, 0, B⟩ t).numread
        < len := by
      rw [hn]; exact Nat.div_lt_of_lt_mul hlt
    have hfetch := (readerAt_inv hsrc t).2.1
    have hrec := ih f (t + 1) (by omega) (by omega)
    simp only [collectLoop, hnum, if_true, hfetch]
    exact hrec

theorem centerLoop_apply (z : Int) (B : Nat → Int) :
    ∀ n i, centerLoop z n B i = if i < n then toSample (B i - z) else B i := by
  intro n
  induction n with
  | zero => intro i; simp [centerLoop]
  | succ n ih =>
    intro i
    by_cases hi : i = n
    · subst hi
      simp [centerLoop, ih]
    · simp only [centerLoop]
      rw [Function.update_noteq hi, ih i]
      by_cases h1 : i < n
      · have : i < n + 1 := by omega
        simp [h1, this]
      · have : ¬ i < n + 1 := by omega
        simp [h1, this]

theorem groupMean_congr (g g' : Nat → Nat) (m len i : Nat) (hi : i < len)
    (h : ∀ k < len * m, g k = g' k) : groupMean g m i = groupMean g' m i := by
  unfold groupMean
  congr 2
  apply Finset.sum_congr rfl
  intro j hj
  have hj' : j < m := Finset.mem_range.mp hj
  apply h
  calc i * m + j < i * m + m := by omega
    _ = (i + 1) * m := by ring
    _ ≤ len * m := Nat.mul_le_mul_right m (by omega)

theorem collectLoop_spec (cal : Nat → Nat) (src : RawSource) (bufsz m len fuel : Nat)
    (B : Nat → Int) (hm : 1 ≤ m) (hsrc : EvenChunks src bufsz) (hfuel : len * m ≤ fuel) :
    ∃ a, collectLoop cal src bufsz m len fuel ⟨0, 0, [], 0, 0⟩ ⟨0, 0, 0, 0, B⟩
        = some (readerAt src bufsz (len * m), a) ∧
      a.numread = len ∧
      a.avg = (∑ i ∈ Finset.range len, groupMean (fun k => cal (codeAt
          (concatChunks src bufsz (readerAt src bufsz (len * m)).pulled) k)) m i) % WORD ∧
      ∀ i, a.Buffer i
        = if i < len then
            toSample (groupMean (fun k => cal (codeAt
              (concatChunks src bufsz (readerAt src bufsz (len * m)).pulled) k)) m i : Nat)
          else B i := by
  obtain ⟨m', rfl⟩ : ∃ m', m = m' + 1 := ⟨m - 1, by omega⟩
  have hloop : collectLoop cal src bufsz (m' + 1) len fuel ⟨0, 0, [], 0, 0⟩ ⟨0, 0, 0, 0, B⟩
      = some (readerAt src bufsz (len * (m' + 1)),
          accRun (m' + 1) (fun s => cal (codeStream src bufsz s)) ⟨0, 0, 0, 0, B⟩
            (len * (m' + 1))) :=
    @collectLoop_run cal src bufsz m' len B hsrc (len * (m' + 1)) fuel 0 (by omega) hfuel
  obtain ⟨hnum, -, -, havg, hbuf⟩ := accRun_inv m' (fun s => cal (codeStream src bufsz s)) B
    (len * (m' + 1)) len 0 (by omega) (by omega)
  have hhist := (readerAt_inv hsrc (len * (m' + 1))).2.2
  have hgm : ∀ i < len,
      groupMean (fun s => cal (codeStream src bufsz s)) (m' + 1) i
      = groupMean (fun k => cal (codeAt
          (concatChunks src bufsz (readerAt src bufsz (len * (m' + 1))).pulled) k)) (m' + 1) i := by
    intro i hi
    apply groupMean_congr _ _ _ len i hi
    intro k hk
    show cal (codeStream src bufsz k) = _
    rw [hhist k hk]
  refine ⟨_, hloop, hnum, ?_, fun i => ?_⟩
  · rw [havg, Finset.sum_congr rfl (fun i hi => hgm i (Finset.mem_range.mp hi))]
  · rw [hbuf i]
    by_cases hi : i < len
    · simp only [hi, if_true]; rw [hgm i hi]
    · simp only [hi, if_false]

/-- Complete description of a `Collect` call on a raw source with even chunks. -/
theorem Collect_spec (hw : Hw) (src : RawSource) (fuel : Nat) (st : ESPSampler) (B : Nat → Int)
    (len : Nat) (hm : 1 ≤ st.Config.multisample) (hsrc : EvenChunks src st._bufsz)
    (hfuel : len * st.Config.multisample ≤ fuel)
    (hlen : st.Config.mode = SamplerMode.SMODE_AC → 1 ≤ len) :
    ∃ res, Collect hw src fuel st B len = some res ∧
      res.numread = len ∧
      res.codes = len * st.Config.multisample ∧
      res.pulled = (readerAt src st._bufsz (len * st.Config.multisample)).pulled ∧
      (st.Config.mode = SamplerMode.SMODE_DC →
        res.st = st ∧
        ∀ i, res.Buffer i
          = if i < len then
              toSample (groupMean (calStream hw st src res.pulled) st.Config.multisample i : Nat)
            else B i) ∧
      (st.Config.mode = SamplerMode.SMODE_AC →
        res.st = { st with AcZero := toSample (((∑ i ∈ Finset.range len,
            groupMean (calStream hw st src res.pulled) st.Config.multisample i) % WORD / len
              : Nat) : Int) } ∧
        ∀ i, res.Buffer i
          = if i < len then
              toSample (toSample (groupMean (calStream hw st src res.pulled)
                  st.Config.multisample i : Nat)
                - toSample (((∑ i ∈ Finset.range len,
                    groupMean (calStream hw st src res.pulled) st.Config.multisample i)
                      % WORD / len : Nat) : Int))
            else B i) := by
  obtain ⟨a, hloop, hnum, havg, hbuf⟩ := collectLoop_spec (calOf hw st) src st._bufsz
    st.Config.multisample len fuel B hm hsrc hfuel
  have hcodes := (readerAt_inv hsrc (len * st.Config.multisample)).1.codes
  cases hmode : st.Config.mode with
  | SMODE_DC =>
    refine ⟨⟨st, a.Buffer, a.numread, (readerAt src st._bufsz (len * st.Config.multisample)).pulled,
      (readerAt src st._bufsz (len * st.Config.multisample)).codes⟩, ?_, hnum, hcodes, rfl, ?_, ?_⟩
    · simp only [Collect, hloop, hmode]; rfl
    · intro _
      exact ⟨rfl, hbuf⟩
    · intro h; cases h
  | SMODE_AC =>
    have hl : 1 ≤ len := hlen hmode
    have hne : ¬ a.numread = 0 := by rw [hnum]; omega
    refine ⟨⟨{ st with AcZero := toSample ((a.avg / a.numread : Nat) : Int) },
      centerLoop (toSample ((a.avg / a.numread : Nat) : Int)) a.numread a.Buffer, a.numread,
      (readerAt src st._bufsz (len * st.Config.multisample)).pulled,
      (readerAt src st._bufsz (len * st.Config.multisample)).codes⟩, ?_, hnum, hcodes, rfl, ?_, ?_⟩
    · simp only [Collect, hloop, hmode, if_true, hne, if_false]
    · intro h; cases h
    · intro _
      simp only
      rw [havg, hnum]
      refine ⟨rfl, fun i => ?_⟩
      rw [centerLoop_apply, hbuf i]
      by_cases hi : i < len
      · simp only [hi, if_true]; rfl
      · simp only [hi, if_false]


/-! ## Constant streams -/

theorem toSample_of_range (x : Int) (h1 : -32768 ≤ x) (h2 : x ≤ 32767) : toSample x = x := by
  unfold toSample; omega

theorem concatChunks_all (src : RawSource) (bufsz b : Nat) (h : ∀ k, ∀ x ∈ src k bufsz, x = b) :
    ∀ n, ∀ x ∈ concatChunks src bufsz n, x = b := by
  intro n
  induction n with
  | zero => intro x hx; simp [concatChunks] at hx
  | succ n ih =>
    intro x hx
    simp only [concatChunks, List.mem_append] at hx
    rcases hx with hx | hx
    · exact ih x hx
    · exact h n x hx

theorem codeAt_all (bs : List Nat) (b : Nat) (h : ∀ x ∈ bs, x = b) (k : Nat)
    (hk : 2 * k + 1 < bs.length) :
    codeAt bs k = mask12 (toSample ((b % 256 + 256 * (b % 256) : Nat) : Int)) := by
  unfold codeAt
  have h0 : 2 * k < bs.length := by omega
  rw [List.getD_eq_getElem bs 0 h0, List.getD_eq_getElem bs 0 hk,
    h _ (List.getElem_mem h0), h _ (List.getElem_mem hk)]

theorem groupSum_const (g : Nat → Nat) (m len i v : Nat) (hi : i < len)
    (h : ∀ k < len * m, g k = v) : (∑ j ∈ Finset.range m, g (i * m + j)) = m * v := by
  have e : (∑ j ∈ Finset.range m, g (i * m + j)) = ∑ _j ∈ Finset.range m, v := by
    apply Finset.sum_congr rfl
    intro j hj
    have hj' : j < m := Finset.mem_range.mp hj
    apply h
    calc i * m + j < i * m + m := by omega
      _ = (i + 1) * m := by ring
      _ ≤ len * m := Nat.mul_le_mul_right m (by omega)
  rw [e, Finset.sum_const, Finset.card_range, smul_eq_mul]

theorem calStream_inbounds {hw : Hw} {st : ESPSampler} {src : RawSource} {v : Nat}
    (hsrc : EvenChunks src st._bufsz) (T : Nat)
    (hconst : ∀ n k, 2 * k + 1 < (concatChunks src st._bufsz n).length → calStream hw st src n k = v) :
    ∀ k < T, calStream hw st src (readerAt src st._bufsz T).pulled k = v := by
  intro k hk
  apply hconst
  have := (readerAt_inv hsrc T).1.length_eq
  omega

/-- A `Collect` call on a stream whose calibrated readings all equal `v`. -/
theorem Collect_const (hw : Hw) (src : RawSource) (fuel : Nat) (st : ESPSampler) (B : Nat → Int)
    (len v : Nat) (hm : 1 ≤ st.Config.multisample) (hsrc : EvenChunks src st._bufsz)
    (hfuel : len * st.Config.multisample ≤ fuel)
    (hlen : st.Config.mode = SamplerMode.SMODE_AC → 1 ≤ len)
    (hconst : ∀ n k, 2 * k + 1 < (concatChunks src st._bufsz n).length →
      calStream hw st src n k = v) :
    ∃ res, Collect hw src fuel st B len = some res ∧
      (∀ i < len, (∑ j ∈ Finset.range st.Config.multisample,
        calStream hw st src res.pulled (i * st.Config.multisample + j))
          = st.Config.multisample * v) ∧
      (st.Config.mode = SamplerMode.SMODE_DC →
        res.st = st ∧
        ∀ i < len, res.Buffer i
          = toSample ((st.Config.multisample * v % WORD / st.Config.multisample : Nat) : Int)) ∧
      (st.Config.mode = SamplerMode.SMODE_AC →
        res.st.AcZero = toSample ((len * (st.Config.multisample * v % WORD
            / st.Config.multisample) % WORD / len : Nat) : Int) ∧
        ∀ i < len, res.Buffer i
          = toSample (toSample ((st.Config.multisample * v % WORD / st.Config.multisample : Nat) : Int)
              - toSample ((len * (st.Config.multisample * v % WORD
                  / st.Config.multisample) % WORD / len : Nat) : Int))) := by
  obtain ⟨res, hres, -, -, hpulled, hdc, hac⟩ := Collect_spec hw src fuel st B len hm hsrc hfuel hlen
  have hin := calStream_inbounds hsrc (len * st.Config.multisample) hconst
  rw [← hpulled] at hin
  have hsumc : ∀ i < len, (∑ j ∈ Finset.range st.Config.multisample,
      calStream hw st src res.pulled (i * st.Config.multisample + j))
        = st.Config.multisample * v :=
    fun i hi => groupSum_const _ _ len i v hi hin
  have hgm : ∀ i < len, groupMean (calStream hw st src res.pulled) st.Config.multisample i
      = st.Config.multisample * v % WORD / st.Config.multisample := by
    intro i hi
    unfold groupMean
    rw [hsumc i hi]
  have hgs : (∑ i ∈ Finset.range len,
      groupMean (calStream hw st src res.pulled) st.Config.multisample i)
      = len * (st.Config.multisample * v % WORD / st.Config.multisample) := by
    rw [Finset.sum_congr rfl (fun i hi => hgm i (Finset.mem_range.mp hi)), Finset.sum_const,
      Finset.card_range, smul_eq_mul]
  refine ⟨res, hres, hsumc, ?_, ?_⟩
  · intro hmode
    obtain ⟨h1, h2⟩ := hdc hmode
    refine ⟨h1, fun i hi => ?_⟩
    rw [h2 i, if_pos hi, hgm i hi]
  · intro hmode
    obtain ⟨h1, h2⟩ := hac hmode
    rw [hgs] at h1 h2
    refine ⟨by rw [h1], fun i hi => ?_⟩
    rw [h2 i, if_pos hi, hgm i hi]

theorem evenChunks_srcFull (bufsz : Nat) : EvenChunks srcFull bufsz := by
  intro k
  show 0 < (List.replicate 1024 255).length ∧ (List.replicate 1024 255).length % 2 = 0
  rw [List.length_replicate]
  exact ⟨by decide, by decide⟩

theorem evenChunks_srcRamp (bufsz : Nat) : EvenChunks srcRamp bufsz := by
  intro k
  simp [srcRamp]

theorem calStream_srcFull (st : ESPSampler) :
    ∀ n k, 2 * k + 1 < (concatChunks srcFull st._bufsz n).length →
      calStream hwUnit st srcFull n k = 4095 := by
  intro n k hk
  have hall := concatChunks_all srcFull st._bufsz 255
    (by intro j x hx; simp only [srcFull] at hx; exact List.eq_of_mem_replicate hx) n
  unfold calStream calOf
  rw [codeAt_all _ 255 hall k hk]
  show mask12 (toSample ((255 % 256 + 256 * (255 % 256) : Nat) : Int)) = 4095
  decide


theorem Collect_ac_of_loop {hw : Hw} {src : RawSource} {fuel : Nat} {st : ESPSampler}
    {B : Nat → Int} {len : Nat} {r : Reader} {a : Acc}
    (hmode : st.Config.mode = SamplerMode.SMODE_AC)
    (hloop : collectLoop (calOf hw st) src st._bufsz st.Config.multisample len fuel
      ⟨0, 0, [], 0, 0⟩ ⟨0, 0, 0, 0, B⟩ = some (r, a))
    (hne : a.numread ≠ 0) :
    Collect hw src fuel st B len
      = some ⟨{ st with AcZero := toSample ((a.avg / a.numread : Nat) : Int) },
          centerLoop (toSample ((a.avg / a.numread : Nat) : Int)) a.numread a.Buffer,
          a.numread, r.pulled, r.codes⟩ := by
  simp only [Collect, hloop, hmode, if_true, hne, if_false]

theorem concatChunks_length_uniform (src : RawSource) (bufsz : Nat)
    (h : ∀ k, (src k bufsz).length = bufsz) :
    ∀ n, (concatChunks src bufsz n).length = n * bufsz := by
  intro n
  induction n with
  | zero => simp [concatChunks]
  | succ n ih => rw [concatChunks, List.length_append, ih, h n, Nat.succ_mul]

theorem pulled_uniform {src : RawSource} {bufsz : Nat} (hpos : 0 < bufsz) (heven : bufsz % 2 = 0)
    (hfull : ∀ k, (src k bufsz).length = bufsz) (T : Nat) :
    (readerAt src bufsz T).pulled = (T + bufsz / 2 - 1) / (bufsz / 2) := by
  have hsrc : EvenChunks src bufsz := fun k => by rw [hfull k]; exact ⟨hpos, heven⟩
  have inv := (readerAt_inv hsrc T).1
  have hlen := inv.length_eq
  rw [concatChunks_length_uniform src bufsz hfull] at hlen
  have hbal := inv.bal
  have hb : bufsz = 2 * (bufsz / 2) := by omega
  have hx : ∀ P : Nat, P * bufsz = 2 * (P * (bufsz / 2)) := by
    intro P
    calc P * bufsz = P * (2 * (bufsz / 2)) := by rw [← hb]
      _ = 2 * (P * (bufsz / 2)) := by ring
  rw [hx] at hlen
  symm
  rcases Nat.eq_zero_or_pos (readerAt src bufsz T).pulled with h0 | hP
  · rw [h0] at hlen ⊢
    have hT : T = 0 := by omega
    rw [hT]
    apply Nat.div_eq_of_lt
    omega
  · have hraw : 0 < (readerAt src bufsz T).rawptr := by
      rcases inv.started with h | h
      · omega
      · exact h
    have hcur := inv.cur (by omega)
    have hcl : (readerAt src bufsz T).chunk.length = bufsz := by rw [hcur, hfull]
    rw [hcl] at hbal
    apply Nat.div_eq_of_lt_le
    · omega
    · rw [Nat.succ_mul]; omega

/-! ## Claims -/

/-- C1 (amended): in DC mode, for every multisample `m >= 1`, every `len` and every raw source
whose chunks hold a positive even number of bytes, `Collect` returns (with fuel `len * m`)
and `Buffer[i]`, for `i < len`, is the mean of the `m` calibrated readings
`cal(cell[i*m + j] & 0xFFF)` as the 32-bit accumulator computes it, i.e.
`floor((sum mod 2^32) / m)` narrowed to 16 bits; it is `floor(sum / m)` narrowed whenever
that sum is below `2^32`. -/
theorem collect_dc_decimation (hw : Hw) (src : RawSource) (fuel : Nat) (st : ESPSampler)
    (B : Nat → Int) (len : Nat)
    (hmode : st.Config.mode = SamplerMode.SMODE_DC) (hm : 1 ≤ st.Config.multisample)
    (hsrc : EvenChunks src st._bufsz) (hfuel : len * st.Config.multisample ≤ fuel) :
    ∃ res, Collect hw src fuel st B len = some res ∧
      ∀ i, i < len →
        res.Buffer i = toSample (((∑ j ∈ Finset.range st.Config.multisample,
            calOf hw st (codeAt (concatChunks src st._bufsz res.pulled)
              (i * st.Config.multisample + j))) % WORD / st.Config.multisample : Nat) : Int) ∧
        ((∑ j ∈ Finset.range st.Config.multisample,
            calOf hw st (codeAt (concatChunks src st._bufsz res.pulled)
              (i * st.Config.multisample + j))) < WORD →
          res.Buffer i = toSample (((∑ j ∈ Finset.range st.Config.multisample,
            calOf hw st (codeAt (concatChunks src st._bufsz res.pulled)
              (i * st.Config.multisample + j))) / st.Config.multisample : Nat) : Int)) := by
  obtain ⟨res, hres, -, -, -, hdc, -⟩ := Collect_spec hw src fuel st B len hm hsrc hfuel
    (by intro h; rw [hmode] at h; cases h)
  obtain ⟨-, hbuf⟩ := hdc hmode
  refine ⟨res, hres, fun i hi => ?_⟩
  have h1 : res.Buffer i = toSample (((∑ j ∈ Finset.range st.Config.multisample,
      calOf hw st (codeAt (concatChunks src st._bufsz res.pulled)
        (i * st.Config.multisample + j))) % WORD / st.Config.multisample : Nat) : Int) := by
    rw [hbuf i, if_pos hi]; rfl
  refine ⟨h1, fun hlt => ?_⟩
  rw [h1, Nat.mod_eq_of_lt hlt]

/-- Witness for C1: averaging factor 2, three outputs, chunks holding the four codes
1, 2, 3, 4095: the outputs are 1, 2049, 1. -/
theorem collect_dc_decimation_witness :
    (stWith SamplerMode.SMODE_DC 2 8).Config.mode = SamplerMode.SMODE_DC ∧
    1 ≤ (stWith SamplerMode.SMODE_DC 2 8).Config.multisample ∧
    EvenChunks srcRamp (stWith SamplerMode.SMODE_DC 2 8)._bufsz ∧
    3 * (stWith SamplerMode.SMODE_DC 2 8).Config.multisample ≤ 6 ∧
    ∃ res, Collect hwUnit srcRamp 6 (stWith SamplerMode.SMODE_DC 2 8) (fun _ => 7) 3 = some res ∧
      (res.Buffer 0 = 1 ∧ res.Buffer 1 = 2049 ∧ res.Buffer 2 = 1) ∧
      ∀ i, i < 3 →
        res.Buffer i = toSample (((∑ j ∈ Finset.range (stWith SamplerMode.SMODE_DC 2 8).Config.multisample,
            calOf hwUnit (stWith SamplerMode.SMODE_DC 2 8)
              (codeAt (concatChunks srcRamp (stWith SamplerMode.SMODE_DC 2 8)._bufsz res.pulled)
                (i * (stWith SamplerMode.SMODE_DC 2 8).Config.multisample + j))) % WORD
              / (stWith SamplerMode.SMODE_DC 2 8).Config.multisample : Nat) : Int) ∧
        ((∑ j ∈ Finset.range (stWith SamplerMode.SMODE_DC 2 8).Config.multisample,
            calOf hwUnit (stWith SamplerMode.SMODE_DC 2 8)
              (codeAt (concatChunks srcRamp (stWith SamplerMode.SMODE_DC 2 8)._bufsz res.pulled)
                (i * (stWith SamplerMode.SMODE_DC 2 8).Config.multisample + j))) < WORD →
          res.Buffer i = toSample (((∑ j ∈ Finset.range (stWith SamplerMode.SMODE_DC 2 8).Config.multisample,
            calOf hwUnit (stWith SamplerMode.SMODE_DC 2 8)
              (codeAt (concatChunks srcRamp (stWith SamplerMode.SMODE_DC 2 8)._bufsz res.pulled)
                (i * (stWith SamplerMode.SMODE_DC 2 8).Config.multisample + j)))
              / (stWith SamplerMode.SMODE_DC 2 8).Config.multisample : Nat) : Int)) := by
  refine ⟨rfl, by decide, evenChunks_srcRamp _, by decide, ?_⟩
  obtain ⟨res, hres, h⟩ := collect_dc_decimation hwUnit srcRamp 6
    (stWith SamplerMode.SMODE_DC 2 8) (fun _ => 7) 3 rfl (by decide) (evenChunks_srcRamp _)
    (by decide)
  refine ⟨res, hres, ?_, h⟩
  have e : Collect hwUnit srcRamp 6 (stWith SamplerMode.SMODE_DC 2 8) (fun _ => 7) 3
      = some ⟨_, _, _, _, _⟩ := rfl
  rw [e] at hres
  cases hres
  decide

/-- Counterexample to C1 as stated: with `multisample = 2097152` and every cell holding the
code 4095 (calibrated to 4095 mV), the sum `2097152 * 4095` exceeds `2^32`; `Collect` writes
`Buffer[0] = 2047`, while `floor(sum / m)` narrowed to 16 bits is 4095. -/
theorem collect_dc_decimation_wraps :
    ∃ res, Collect hwUnit srcFull 2097152 (stWith SamplerMode.SMODE_DC 2097152 1024)
        (fun _ => 0) 1 = some res ∧
      res.Buffer 0 = 2047 ∧
      toSample (((∑ j ∈ Finset.range 2097152,
        calOf hwUnit (stWith SamplerMode.SMODE_DC 2097152 1024)
          (codeAt (concatChunks srcFull 1024 res.pulled) (0 * 2097152 + j))) / 2097152 : Nat) : Int)
        = 4095 := by
  obtain ⟨res, hres, hsum, hdc, -⟩ := Collect_const hwUnit srcFull 2097152
    (stWith SamplerMode.SMODE_DC 2097152 1024) (fun _ => 0) 1 4095 (by decide)
    (evenChunks_srcFull _) (by decide) (by intro h; cases h) (calStream_srcFull _)
  refine ⟨res, hres, ?_, ?_⟩
  · rw [(hdc rfl).2 0 (by decide)]
    decide
  · have h0 := hsum 0 (by decide)
    have h1 : (∑ j ∈ Finset.range 2097152,
        calOf hwUnit (stWith SamplerMode.SMODE_DC 2097152 1024)
          (codeAt (concatChunks srcFull 1024 res.pulled) (0 * 2097152 + j))) = 2097152 * 4095 := h0
    rw [h1]
    decide


/-- C2: for every configuration with `multisample = m >= 1`, every `n >= 1` and every
positive even `_bufsz`, when each read delivers exactly `_bufsz` bytes, `Collect(Buffer, n)`
returns (fuel `n * m` suffices) having pulled exactly `ceil(n*m / (_bufsz/2))` chunks, read
exactly `n * m` raw codes and written exactly `n` samples: for every `i < n`, `Buffer[i]`
holds output sample `i`, the narrowed mean of the calibrated codes `i*m .. i*m + m - 1`
(in AC mode minus the stored `AcZero`, narrowed again), whatever the caller left there, and
`Buffer` is unchanged from index `n` on. -/
theorem collect_counts (hw : Hw) (src : RawSource) (fuel : Nat) (st : ESPSampler)
    (B : Nat → Int) (n : Nat)
    (hm : 1 ≤ st.Config.multisample) (hn : 1 ≤ n)
    (hpos : 0 < st._bufsz) (heven : st._bufsz % 2 = 0)
    (hfull : ∀ k, (src k st._bufsz).length = st._bufsz)
    (hfuel : n * st.Config.multisample ≤ fuel) :
    ∃ res, Collect hw src fuel st B n = some res ∧
      res.pulled = (n * st.Config.multisample + st._bufsz / 2 - 1) / (st._bufsz / 2) ∧
      res.codes = n * st.Config.multisample ∧
      res.numread = n ∧
      (st.Config.mode = SamplerMode.SMODE_DC → ∀ i, i < n →
        res.Buffer i = toSample (((∑ j ∈ Finset.range st.Config.multisample,
          calOf hw st (codeAt (concatChunks src st._bufsz res.pulled)
            (i * st.Config.multisample + j))) % WORD / st.Config.multisample : Nat) : Int)) ∧
      (st.Config.mode = SamplerMode.SMODE_AC → ∀ i, i < n →
        res.Buffer i = toSample (toSample (((∑ j ∈ Finset.range st.Config.multisample,
          calOf hw st (codeAt (concatChunks src st._bufsz res.pulled)
            (i * st.Config.multisample + j))) % WORD / st.Config.multisample : Nat) : Int)
          - res.st.AcZero)) ∧
      ∀ k, n ≤ k → res.Buffer k = B k := by
  have hsrc : EvenChunks src st._bufsz := fun k => by rw [hfull k]; exact ⟨hpos, heven⟩
  obtain ⟨res, hres, hnum, hcodes, hpulled, hdc, hac⟩ :=
    Collect_spec hw src fuel st B n hm hsrc hfuel (fun _ => hn)
  refine ⟨res, hres, ?_, hcodes, hnum, fun hmode i hi => ?_, fun hmode i hi => ?_,
    fun k hk => ?_⟩
  · rw [hpulled, pulled_uniform hpos heven hfull]
  · rw [(hdc hmode).2 i, if_pos hi]; rfl
  · rw [(hac hmode).2 i, if_pos hi, (hac hmode).1]; rfl
  · cases hmode : st.Config.mode with
    | SMODE_DC => rw [(hdc hmode).2 k, if_neg (by omega)]
    | SMODE_AC => rw [(hac hmode).2 k, if_neg (by omega)]

/-- Witness for C2: AC mode, averaging factor 2, three outputs, chunks of the four cells
1, 2, 3, 4095: two chunks, six codes, and the buffer `7, 7, 7, 7, ...` of the caller comes
back as `-682, 1366, -682, 7, ...`. -/
theorem collect_counts_witness :
    1 ≤ (stWith SamplerMode.SMODE_AC 2 8).Config.multisample ∧ 1 ≤ 3 ∧
    0 < (stWith SamplerMode.SMODE_AC 2 8)._bufsz ∧
    (stWith SamplerMode.SMODE_AC 2 8)._bufsz % 2 = 0 ∧
    (∀ k, (srcRamp k (stWith SamplerMode.SMODE_AC 2 8)._bufsz).length
      = (stWith SamplerMode.SMODE_AC 2 8)._bufsz) ∧
    3 * (stWith SamplerMode.SMODE_AC 2 8).Config.multisample ≤ 6 ∧
    (∃ res, Collect hwUnit srcRamp 6 (stWith SamplerMode.SMODE_AC 2 8) (fun _ => 7) 3 = some res ∧
      res.pulled = (3 * (stWith SamplerMode.SMODE_AC 2 8).Config.multisample
        + (stWith SamplerMode.SMODE_AC 2 8)._bufsz / 2 - 1)
          / ((stWith SamplerMode.SMODE_AC 2 8)._bufsz / 2) ∧
      res.codes = 3 * (stWith SamplerMode.SMODE_AC 2 8).Config.multisample ∧
      res.numread = 3 ∧
      ((stWith SamplerMode.SMODE_AC 2 8).Config.mode = SamplerMode.SMODE_DC → ∀ i, i < 3 →
        res.Buffer i = toSample (((∑ j ∈ Finset.range
            (stWith SamplerMode.SMODE_AC 2 8).Config.multisample,
          calOf hwUnit (stWith SamplerMode.SMODE_AC 2 8)
            (codeAt (concatChunks srcRamp (stWith SamplerMode.SMODE_AC 2 8)._bufsz res.pulled)
              (i * (stWith SamplerMode.SMODE_AC 2 8).Config.multisample + j))) % WORD
            / (stWith SamplerMode.SMODE_AC 2 8).Config.multisample : Nat) : Int)) ∧
      ((stWith SamplerMode.SMODE_AC 2 8).Config.mode = SamplerMode.SMODE_AC → ∀ i, i < 3 →
        res.Buffer i = toSample (toSample (((∑ j ∈ Finset.range
            (stWith SamplerMode.SMODE_AC 2 8).Config.multisample,
          calOf hwUnit (stWith SamplerMode.SMODE_AC 2 8)
            (codeAt (concatChunks srcRamp (stWith SamplerMode.SMODE_AC 2 8)._bufsz res.pulled)
              (i * (stWith SamplerMode.SMODE_AC 2 8).Config.multisample + j))) % WORD
            / (stWith SamplerMode.SMODE_AC 2 8).Config.multisample : Nat) : Int)
          - res.st.AcZero)) ∧
      ∀ k, 3 ≤ k → res.Buffer k = (fun _ => 7) k) ∧
    (Collect hwUnit srcRamp 6 (stWith SamplerMode.SMODE_AC 2 8) (fun _ => 7) 3).map
      (fun r => (r.Buffer 0, r.Buffer 1, r.Buffer 2, r.Buffer 3)) = some (-682, 1366, -682, 7) :=
  ⟨by decide, by decide, by decide, by decide, fun _ => rfl, by decide,
    collect_counts hwUnit srcRamp 6 (stWith SamplerMode.SMODE_AC 2 8) (fun _ => 7) 3
      (by decide) (by decide) (by decide) (by decide) (fun _ => rfl) (by decide),
    by decide⟩

theorem codeAt_lt (bs : List Nat) (k : Nat) : codeAt bs k < 4096 := by
  unfold codeAt mask12
  omega

theorem toSample_natCast (n : Nat) (h : n ≤ 32767) : toSample (n : Int) = n := by
  apply toSample_of_range <;> omega

theorem toSample_sub_natCast (a b : Nat) (ha : a ≤ 32767) (hb : b ≤ 32767) :
    toSample ((a : Int) - b) = a - b := by
  apply toSample_of_range <;> omega

theorem groupMean_le (g : Nat → Nat) (m i : Nat) (hg : ∀ k, g k ≤ 32767) :
    groupMean g m i ≤ 32767 := by
  unfold groupMean
  have hs : (∑ j ∈ Finset.range m, g (i * m + j)) ≤ m * 32767 := by
    have := Finset.sum_le_card_nsmul (Finset.range m) (fun j => g (i * m + j)) 32767
      (fun j _ => hg _)
    rwa [Finset.card_range, smul_eq_mul] at this
  apply Nat.div_le_of_le_mul
  exact le_trans (Nat.mod_le _ _) hs

/-- C3 (amended): in AC mode with `len >= 1`, provided the calibrated readings of the 12-bit
codes are at most 32767 mV (so that no emitted sample is changed by the narrowing to 16 bits)
and the sum `S` of the `len` samples the loop emitted is below `2^32` (the 32-bit grand sum
`avg` does not wrap), `Collect` stores `AcZero = floor(S / len)`, and on return `Buffer[i]` is
the emitted sample `i` minus `AcZero` for every `i < len`. -/
theorem collect_ac_centering (hw : Hw) (src : RawSource) (fuel : Nat) (st : ESPSampler)
    (B : Nat → Int) (len : Nat)
    (hmode : st.Config.mode = SamplerMode.SMODE_AC) (hlen : 1 ≤ len)
    (hm : 1 ≤ st.Config.multisample) (hsrc : EvenChunks src st._bufsz)
    (hfuel : len * st.Config.multisample ≤ fuel)
    (hcal : ∀ code, code < 4096 → calOf hw st code ≤ 32767) :
    ∃ r a res,
      collectLoop (calOf hw st) src st._bufsz st.Config.multisample len fuel
        ⟨0, 0, [], 0, 0⟩ ⟨0, 0, 0, 0, B⟩ = some (r, a) ∧
      Collect hw src fuel st B len = some res ∧
      ((∑ i ∈ Finset.range len, a.Buffer i) < 2 ^ 32 →
        res.st.AcZero = (∑ i ∈ Finset.range len, a.Buffer i) / (len : Int) ∧
        ∀ i, i < len → res.Buffer i = a.Buffer i - res.st.AcZero) := by
  obtain ⟨a, hloop, hnum, havg, hbuf⟩ := collectLoop_spec (calOf hw st) src st._bufsz
    st.Config.multisample len fuel B hm hsrc hfuel
  have hne : a.numread ≠ 0 := by rw [hnum]; omega
  have hres := Collect_ac_of_loop hmode hloop hne
  obtain ⟨g, hg⟩ : ∃ g : Nat → Nat, g = fun k => calOf hw st (codeAt (concatChunks src st._bufsz
      (readerAt src st._bufsz (len * st.Config.multisample)).pulled) k) := ⟨_, rfl⟩
  rw [← hg] at havg hbuf
  have hqle : ∀ i, groupMean g st.Config.multisample i ≤ 32767 := fun i =>
    groupMean_le g _ i (fun k => by rw [hg]; exact hcal _ (codeAt_lt _ _))
  have hbufq : ∀ i, i < len → a.Buffer i = (groupMean g st.Config.multisample i : Int) := by
    intro i hi
    rw [hbuf i, if_pos hi]
    exact toSample_natCast _ (hqle i)
  have hsle : (∑ i ∈ Finset.range len, groupMean g st.Config.multisample i) ≤ len * 32767 := by
    have := Finset.sum_le_card_nsmul (Finset.range len)
      (fun i => groupMean g st.Config.multisample i) 32767 (fun i _ => hqle i)
    rwa [Finset.card_range, smul_eq_mul] at this
  have hS : (∑ i ∈ Finset.range len, a.Buffer i)
      = ((∑ i ∈ Finset.range len, groupMean g st.Config.multisample i : Nat) : Int) := by
    rw [Nat.cast_sum]
    exact Finset.sum_congr rfl (fun i hi => hbufq i (Finset.mem_range.mp hi))
  refine ⟨_, a, _, hloop, hres, fun hlt => ?_⟩
  rw [hS] at hlt
  have hlt' : (∑ i ∈ Finset.range len, groupMean g st.Config.multisample i) < WORD := by
    unfold WORD
    exact_mod_cast hlt
  have havg' : a.avg = ∑ i ∈ Finset.range len, groupMean g st.Config.multisample i := by
    rw [havg]
    exact Nat.mod_eq_of_lt hlt'
  have hzle : a.avg / len ≤ 32767 := by
    rw [havg']; exact Nat.div_le_of_le_mul hsle
  have hz : toSample ((a.avg / a.numread : Nat) : Int)
      = (∑ i ∈ Finset.range len, a.Buffer i) / (len : Int) := by
    rw [hnum, hS, ← havg', ← Int.natCast_div]
    exact toSample_natCast _ hzle
  refine ⟨hz, fun i hi => ?_⟩
  show centerLoop (toSample ((a.avg / a.numread : Nat) : Int)) a.numread a.Buffer i
    = a.Buffer i - toSample ((a.avg / a.numread : Nat) : Int)
  rw [centerLoop_apply, hnum, if_pos hi, toSample_natCast _ hzle, hbufq i hi]
  exact toSample_sub_natCast _ _ (hqle i) hzle

/-- Witness for C3: averaging factor 2, three outputs, chunks holding the four codes
1, 2, 3, 4095: the emitted samples are 1, 2049, 1, their sum is 2051 and `AcZero = 683`. -/
theorem collect_ac_centering_witness :
    (stWith SamplerMode.SMODE_AC 2 8).Config.mode = SamplerMode.SMODE_AC ∧ 1 ≤ 3 ∧
    1 ≤ (stWith SamplerMode.SMODE_AC 2 8).Config.multisample ∧
    EvenChunks srcRamp (stWith SamplerMode.SMODE_AC 2 8)._bufsz ∧
    3 * (stWith SamplerMode.SMODE_AC 2 8).Config.multisample ≤ 6 ∧
    (∀ code, code < 4096 → calOf hwUnit (stWith SamplerMode.SMODE_AC 2 8) code ≤ 32767) ∧
    ∃ r a res,
      collectLoop (calOf hwUnit (stWith SamplerMode.SMODE_AC 2 8)) srcRamp
        (stWith SamplerMode.SMODE_AC 2 8)._bufsz (stWith SamplerMode.SMODE_AC 2 8).Config.multisample
        3 6 ⟨0, 0, [], 0, 0⟩ ⟨0, 0, 0, 0, fun _ => 7⟩ = some (r, a) ∧
      Collect hwUnit srcRamp 6 (stWith SamplerMode.SMODE_AC 2 8) (fun _ => 7) 3 = some res ∧
      (∑ i ∈ Finset.range 3, a.Buffer i) = 2051 ∧
      (∑ i ∈ Finset.range 3, a.Buffer i) < 2 ^ 32 ∧
      res.st.AcZero = 683 ∧
      res.st.AcZero = (∑ i ∈ Finset.range 3, a.Buffer i) / ((3 : Nat) : Int) ∧
      ∀ i, i < 3 → res.Buffer i = a.Buffer i - res.st.AcZero := by
  refine ⟨rfl, by decide, by decide, evenChunks_srcRamp _, by decide,
    fun code h => by show code ≤ 32767; omega, ?_⟩
  obtain ⟨r, a, res, hloop, hres, h⟩ := collect_ac_centering hwUnit srcRamp 6
    (stWith SamplerMode.SMODE_AC 2 8) (fun _ => 7) 3 rfl (by decide) (by decide)
    (evenChunks_srcRamp _) (by decide) (fun code h => by show code ≤ 32767; omega)
  have hb : ∀ i, (collectLoop (calOf hwUnit (stWith SamplerMode.SMODE_AC 2 8)) srcRamp
      (stWith SamplerMode.SMODE_AC 2 8)._bufsz (stWith SamplerMode.SMODE_AC 2 8).Config.multisample
      3 6 ⟨0, 0, [], 0, 0⟩ ⟨0, 0, 0, 0, fun _ => 7⟩).map (fun ra => ra.2.Buffer i)
        = some (a.Buffer i) := fun i => by rw [hloop]; rfl
  have h0 : a.Buffer 0 = 1 := Option.some.inj ((hb 0).symm.trans (by decide))
  have h1 : a.Buffer 1 = 2049 := Option.some.inj ((hb 1).symm.trans (by decide))
  have h2 : a.Buffer 2 = 1 := Option.some.inj ((hb 2).symm.trans (by decide))
  have hS : (∑ i ∈ Finset.range 3, a.Buffer i) = 2051 := by
    rw [Finset.sum_range_succ, Finset.sum_range_succ, Finset.sum_range_one, h0, h1, h2]
    norm_num
  have hlt : (∑ i ∈ Finset.range 3, a.Buffer i) < 2 ^ 32 := by rw [hS]; norm_num
  have hz := (h hlt).1
  refine ⟨r, a, res, hloop, hres, hS, hlt, ?_, hz, (h hlt).2⟩
  rw [hz, hS]
  norm_num

/-- The loop of `Collect` on a stream whose calibrated readings all equal `v`. -/
theorem collectLoop_const (hw : Hw) (src : RawSource) (fuel : Nat) (st : ESPSampler)
    (B : Nat → Int) (len v : Nat) (hm : 1 ≤ st.Config.multisample)
    (hsrc : EvenChunks src st._bufsz) (hfuel : len * st.Config.multisample ≤ fuel)
    (hconst : ∀ n k, 2 * k + 1 < (concatChunks src st._bufsz n).length →
      calStream hw st src n k = v) :
    ∃ a, collectLoop (calOf hw st) src st._bufsz st.Config.multisample len fuel
        ⟨0, 0, [], 0, 0⟩ ⟨0, 0, 0, 0, B⟩
          = some (readerAt src st._bufsz (len * st.Config.multisample), a) ∧
      a.numread = len ∧
      a.avg = len * (st.Config.multisample * v % WORD / st.Config.multisample) % WORD ∧
      ∀ i, i < len → a.Buffer i
        = toSample ((st.Config.multisample * v % WORD / st.Config.multisample : Nat) : Int) := by
  obtain ⟨a, hloop, hnum, havg, hbuf⟩ := collectLoop_spec (calOf hw st) src st._bufsz
    st.Config.multisample len fuel B hm hsrc hfuel
  have hin := calStream_inbounds hsrc (len * st.Config.multisample) hconst
  obtain ⟨g, hg⟩ : ∃ g : Nat → Nat, g = fun k => calOf hw st (codeAt (concatChunks src st._bufsz
      (readerAt src st._bufsz (len * st.Config.multisample)).pulled) k) := ⟨_, rfl⟩
  rw [← hg] at havg hbuf
  have hin' : ∀ k < len * st.Config.multisample, g k = v := by
    intro k hk
    rw [hg]
    exact hin k hk
  have hgm : ∀ i < len, groupMean g st.Config.multisample i
      = st.Config.multisample * v % WORD / st.Config.multisample := by
    intro i hi
    unfold groupMean
    rw [groupSum_const g _ len i v hi hin']
  refine ⟨a, hloop, hnum, ?_, fun i hi => ?_⟩
  · rw [havg, Finset.sum_congr rfl (fun i hi => hgm i (Finset.mem_range.mp hi)), Finset.sum_const,
      Finset.card_range, smul_eq_mul]
  · rw [hbuf i, if_pos hi, hgm i hi]

/-- Counterexample to C3 as stated, two inputs.  First: averaging factor 1, `len = 1048833`,
every cell calibrated to 4095 mV; every emitted sample is 4095, so `floor(S / len) = 4095`,
but the grand sum `1048833 * 4095` wraps the 32-bit accumulator `avg` to 3839 and `Collect`
stores `AcZero = 0`.  Second: averaging factor 1, `len = 2`, a calibration of 10 mV per code
and the codes 4095 and 0; the emitted samples are `40950` narrowed to `-24586` and `0`, so
`floor(S / len) = -12293`, but `Collect` sums the un-narrowed means and stores
`AcZero = 20475`. -/
theorem collect_ac_centering_wraps :
    (∃ r a res,
      collectLoop (calOf hwUnit (stWith SamplerMode.SMODE_AC 1 1024)) srcFull 1024 1 1048833 1048833
        ⟨0, 0, [], 0, 0⟩ ⟨0, 0, 0, 0, fun _ => 0⟩ = some (r, a) ∧
      Collect hwUnit srcFull 1048833 (stWith SamplerMode.SMODE_AC 1 1024) (fun _ => 0) 1048833
        = some res ∧
      res.st.AcZero = 0 ∧
      (∑ i ∈ Finset.range 1048833, a.Buffer i) / ((1048833 : Nat) : Int) = 4095) ∧
    (∃ r a res,
      collectLoop (calOf hwWide (stWith SamplerMode.SMODE_AC 1 4)) srcStep 4 1 2 2
        ⟨0, 0, [], 0, 0⟩ ⟨0, 0, 0, 0, fun _ => 0⟩ = some (r, a) ∧
      Collect hwWide srcStep 2 (stWith SamplerMode.SMODE_AC 1 4) (fun _ => 0) 2 = some res ∧
      res.st.AcZero = 20475 ∧
      a.Buffer 0 = -24586 ∧ a.Buffer 1 = 0 ∧
      (∑ i ∈ Finset.range 2, a.Buffer i) / ((2 : Nat) : Int) = -12293) := by
  constructor
  · obtain ⟨a, hloop, hnum, havg, hbuf⟩ := collectLoop_const hwUnit srcFull 1048833
      (stWith SamplerMode.SMODE_AC 1 1024) (fun _ => 0) 1048833 4095 (by decide)
      (evenChunks_srcFull _) (by decide) (calStream_srcFull _)
    have hne : a.numread ≠ 0 := by rw [hnum]; decide
    have hres := @Collect_ac_of_loop hwUnit srcFull 1048833 (stWith SamplerMode.SMODE_AC 1 1024)
      (fun _ => 0) 1048833 _ a rfl hloop hne
    refine ⟨_, a, _, hloop, hres, ?_, ?_⟩
    · show toSample ((a.avg / a.numread : Nat) : Int) = 0
      rw [havg, hnum]
      decide
    · have hS : (∑ i ∈ Finset.range 1048833, a.Buffer i)
          = ∑ _i ∈ Finset.range 1048833, (4095 : Int) := by
        apply Finset.sum_congr rfl
        intro i hi
        rw [hbuf i (Finset.mem_range.mp hi)]
        decide
      rw [hS, Finset.sum_const, Finset.card_range]
      decide
  · refine ⟨_, _, _, rfl, rfl, by decide, by decide, by decide, ?_⟩
    rw [Finset.sum_range_succ, Finset.sum_range_one]
    decide

/-- C4 (amended): for every `m >= 1`, `len >= 1` and every raw stream whose calibrated values
all equal a constant `v <= 32767`, provided `m * v < 2^32` (the 32-bit accumulator `mavg`
does not wrap), every output sample of `Collect` in DC mode equals `v`; in AC mode, provided
also `len * v < 2^32` (the 32-bit grand sum `avg`, used in AC mode only, does not wrap), every
output sample is 0 and `AcZero == v`. -/
theorem collect_constant_stream (hw : Hw) (src : RawSource) (fuel : Nat) (st : ESPSampler)
    (B : Nat → Int) (len v : Nat)
    (hm : 1 ≤ st.Config.multisample) (hlen : 1 ≤ len)
    (hsrc : EvenChunks src st._bufsz) (hfuel : len * st.Config.multisample ≤ fuel)
    (hconst : ∀ n k, 2 * k + 1 < (concatChunks src st._bufsz n).length →
      calOf hw st (codeAt (concatChunks src st._bufsz n) k) = v)
    (hv : v ≤ 32767) (hmw : st.Config.multisample * v < 2 ^ 32)
    (hlw : st.Config.mode = SamplerMode.SMODE_AC → len * v < 2 ^ 32) :
    ∃ res, Collect hw src fuel st B len = some res ∧
      (st.Config.mode = SamplerMode.SMODE_DC → ∀ i, i < len → res.Buffer i = v) ∧
      (st.Config.mode = SamplerMode.SMODE_AC →
        (∀ i, i < len → res.Buffer i = 0) ∧ res.st.AcZero = v) := by
  obtain ⟨res, hres, -, hdc, hac⟩ := Collect_const hw src fuel st B len v hm hsrc hfuel
    (fun _ => hlen) hconst
  have hmw' : st.Config.multisample * v < WORD := hmw
  have hq : st.Config.multisample * v % WORD / st.Config.multisample = v := by
    rw [Nat.mod_eq_of_lt hmw', Nat.mul_div_cancel_left v (by omega)]
  rw [hq] at hdc hac
  refine ⟨res, hres, ?_, ?_⟩
  · intro hmode i hi
    rw [(hdc hmode).2 i hi, toSample_natCast v hv]
  · intro hmode
    have hlw' : len * v < WORD := hlw hmode
    have hz : len * v % WORD / len = v := by
      rw [Nat.mod_eq_of_lt hlw', Nat.mul_div_cancel_left v (by omega)]
    rw [hz] at hac
    refine ⟨fun i hi => ?_, ?_⟩
    · rw [(hac hmode).2 i hi, toSample_natCast v hv, sub_self]
      rfl
    · rw [(hac hmode).1, toSample_natCast v hv]

/-- Witness for C4: averaging factor 2, three outputs, every cell calibrated to 4095 mV. -/
theorem collect_constant_stream_witness :
    1 ≤ (stWith SamplerMode.SMODE_AC 2 1024).Config.multisample ∧ 1 ≤ 3 ∧
    EvenChunks srcFull (stWith SamplerMode.SMODE_AC 2 1024)._bufsz ∧
    3 * (stWith SamplerMode.SMODE_AC 2 1024).Config.multisample ≤ 6 ∧
    (∀ n k, 2 * k + 1 < (concatChunks srcFull (stWith SamplerMode.SMODE_AC 2 1024)._bufsz n).length →
      calOf hwUnit (stWith SamplerMode.SMODE_AC 2 1024)
        (codeAt (concatChunks srcFull (stWith SamplerMode.SMODE_AC 2 1024)._bufsz n) k) = 4095) ∧
    4095 ≤ 32767 ∧
    (stWith SamplerMode.SMODE_AC 2 1024).Config.multisample * 4095 < 2 ^ 32 ∧
    ((stWith SamplerMode.SMODE_AC 2 1024).Config.mode = SamplerMode.SMODE_AC →
      3 * 4095 < 2 ^ 32) ∧
    ∃ res, Collect hwUnit srcFull 6 (stWith SamplerMode.SMODE_AC 2 1024) (fun _ => 7) 3 = some res ∧
      ((stWith SamplerMode.SMODE_AC 2 1024).Config.mode = SamplerMode.SMODE_DC →
        ∀ i, i < 3 → res.Buffer i = ((4095 : Nat) : Int)) ∧
      ((stWith SamplerMode.SMODE_AC 2 1024).Config.mode = SamplerMode.SMODE_AC →
        (∀ i, i < 3 → res.Buffer i = 0) ∧ res.st.AcZero = ((4095 : Nat) : Int)) :=
  ⟨by decide, by decide, evenChunks_srcFull _, by decide, calStream_srcFull _, by decide,
    by decide, fun _ => by decide,
    collect_constant_stream hwUnit srcFull 6 (stWith SamplerMode.SMODE_AC 2 1024) (fun _ => 7) 3
      4095 (by decide) (by decide) (evenChunks_srcFull _) (by decide) (calStream_srcFull _)
      (by decide) (by decide) (fun _ => by decide)⟩

/-- Counterexample to C4 as stated, two inputs, every calibrated value being `v = 4095`.
First (DC mode, `multisample = 1048833`, `len = 2`): the sum `1048833 * 4095` wraps the
32-bit accumulator `mavg` to 3839, and `Collect` writes `Buffer[0] = 0`, not 4095.
Second (AC mode, `multisample = 1`, `len = 1048834`): the grand sum `1048834 * 4095` wraps
`avg` to 7934, `Collect` stores `AcZero = 0` and leaves `Buffer[0] = 4095`. -/
theorem collect_constant_stream_wraps :
    (∀ n k, 2 * k + 1 < (concatChunks srcFull 1024 n).length →
      calOf hwUnit (stWith SamplerMode.SMODE_DC 1048833 1024)
        (codeAt (concatChunks srcFull 1024 n) k) = 4095) ∧
    (∃ res, Collect hwUnit srcFull 2097666 (stWith SamplerMode.SMODE_DC 1048833 1024)
        (fun _ => 0) 2 = some res ∧
      res.Buffer 0 = 0) ∧
    (∃ res, Collect hwUnit srcFull 1048834 (stWith SamplerMode.SMODE_AC 1 1024)
        (fun _ => 0) 1048834 = some res ∧
      res.st.AcZero = 0 ∧ res.Buffer 0 = 4095) := by
  refine ⟨calStream_srcFull (stWith SamplerMode.SMODE_DC 1048833 1024), ?_, ?_⟩
  · obtain ⟨res, hres, -, hdc, -⟩ := Collect_const hwUnit srcFull 2097666
      (stWith SamplerMode.SMODE_DC 1048833 1024) (fun _ => 0) 2 4095 (by decide)
      (evenChunks_srcFull _) (by decide) (by intro h; cases h) (calStream_srcFull _)
    refine ⟨res, hres, ?_⟩
    rw [(hdc rfl).2 0 (by decide)]
    decide
  · obtain ⟨res, hres, -, -, hac⟩ := Collect_const hwUnit srcFull 1048834
      (stWith SamplerMode.SMODE_AC 1 1024) (fun _ => 0) 1048834 4095 (by decide)
      (evenChunks_srcFull _) (by decide) (by intro _; decide) (calStream_srcFull _)
    refine ⟨res, hres, ?_, ?_⟩
    · rw [(hac rfl).1]
      decide
    · rw [(hac rfl).2 0 (by decide)]
      decide

/-! ## `adc1_setup`, `Begin`, `Measure`, configuration -/

/-- C5 (the code at the nine ceilings): each ceiling is written as a `double` literal and
stored in the `float` field `vmax`.  The comparisons `Config.vmax <= 1.1` and
`Config.vmax <= 2.2` are made in `double`, and the `float` nearest to 1.1 (resp. 2.2) lies
above the `double` nearest to 1.1 (resp. 2.2): the ceiling 1.1 selects 2.5 dB and the
ceiling 2.2 selects 11 dB.  The other seven ceilings select the band the claim names. -/
theorem selectAtten_ceilings :
    selectAtten (floatOfDouble (doubleLit 105 100)) = adc_atten_t.ADC_ATTEN_0db ∧
    selectAtten (floatOfDouble (doubleLit 11 10)) = adc_atten_t.ADC_ATTEN_2_5db ∧
    selectAtten (floatOfDouble (doubleLit 13 10)) = adc_atten_t.ADC_ATTEN_2_5db ∧
    selectAtten (floatOfDouble (doubleLit 15 10)) = adc_atten_t.ADC_ATTEN_2_5db ∧
    selectAtten (floatOfDouble (doubleLit 20 10)) = adc_atten_t.ADC_ATTEN_6db ∧
    selectAtten (floatOfDouble (doubleLit 22 10)) = adc_atten_t.ADC_ATTEN_11db ∧
    selectAtten (floatOfDouble (doubleLit 30 10)) = adc_atten_t.ADC_ATTEN_11db ∧
    selectAtten (floatOfDouble (doubleLit 33 10)) = adc_atten_t.ADC_ATTEN_11db ∧
    selectAtten (floatOfDouble (doubleLit 100 10)) = adc_atten_t.ADC_ATTEN_11db := by
  decide

theorem toTime_of_fits (hw : Hw) (p : Nat) (h : p < 2 ^ 32)
    (hfit : hw.time = time_t.long32 → p < 2 ^ 31) : toTime hw.time (p : Int) = p := by
  cases ht : hw.time with
  | long32 =>
    have := hfit ht
    simp only [toTime]
    omega
  | long64 =>
    simp only [toTime]
    omega

theorem dmaSize_eq (hw : Hw) (cfg : SamplerConfig)
    (h : cfg.numsamples * cfg.multisample * 2 < 2 ^ 32)
    (hfit : hw.time = time_t.long32 → cfg.numsamples * cfg.multisample * 2 < 2 ^ 31) :
    dmaSize hw cfg = ((cfg.numsamples * cfg.multisample * 2 : Nat) : Int) := by
  unfold dmaSize WORD
  have h1 : cfg.numsamples * cfg.multisample < 2 ^ 32 := by omega
  rw [Nat.mod_eq_of_lt h1, Nat.mod_eq_of_lt h]
  exact toTime_of_fits hw _ h hfit

theorem chunkSize_eq (hw : Hw) (cfg : SamplerConfig)
    (h : cfg.numsamples * cfg.multisample * 2 < 2 ^ 32)
    (hfit : hw.time = time_t.long32 → cfg.numsamples * cfg.multisample * 2 < 2 ^ 31) :
    chunkSize hw cfg = min (cfg.numsamples * cfg.multisample * 2) 1024 := by
  unfold chunkSize SMP_MAXBUFFERSIZE WORD
  rw [dmaSize_eq hw cfg h hfit]
  split <;> omega

theorem toNat_one_add (q : Nat) : (1 + (q : Int)).toNat = 1 + q := by omega

theorem divTimeBySize_natCast (w : time_t) (p b : Nat) (h : p < 2 ^ 32) :
    divTimeBySize w (p : Int) b = ((p / b : Nat) : Int) := by
  cases w with
  | long32 =>
    simp only [divTimeBySize]
    have e : ((p : Int) % 4294967296).toNat = p := by omega
    rw [e]
  | long64 =>
    simp only [divTimeBySize]
    rw [Int.tdiv_eq_ediv (Int.ofNat_nonneg p) (Int.ofNat_nonneg b)]
    rfl

/-- The chunk size is zero exactly when the wrapped `size_t` product is, whatever `time_t` is. -/
theorem chunkSize_eq_zero_iff (hw : Hw) (cfg : SamplerConfig) :
    chunkSize hw cfg = 0 ↔ ((cfg.numsamples * cfg.multisample) % WORD * 2) % WORD = 0 := by
  unfold chunkSize dmaSize SMP_MAXBUFFERSIZE
  have hlt : ((cfg.numsamples * cfg.multisample) % WORD * 2) % WORD < WORD :=
    Nat.mod_lt _ (by unfold WORD; omega)
  generalize ((cfg.numsamples * cfg.multisample) % WORD * 2) % WORD = p at hlt
  unfold WORD at hlt ⊢
  cases hw.time with
  | long32 =>
    simp only [toTime]
    split <;> omega
  | long64 =>
    simp only [toTime]
    split <;> omega

theorem Begin_eq (hw : Hw) (ok : Bool) (st : ESPSampler) (hf : st.Config.samplefrequency ≠ 0)
    (hb : chunkSize hw st.Config ≠ 0) :
    Begin hw ok st = some
      { st := { (adc1_setup hw st st.Config.pin).2 with
          _bufsz := chunkSize hw st.Config
          CollectTime := toTime hw.time
            ((((1000 * st.Config.numsamples) % WORD) / st.Config.samplefrequency : Nat) : Int)
          _running := true }
        AConfig :=
          { channels := 1
            buffer_size := chunkSize hw st.Config
            buffer_count :=
              (1 + divTimeBySize hw.time (dmaSize hw st.Config) (chunkSize hw st.Config)).toNat
            sample_rate := (st.Config.samplefrequency * st.Config.multisample) % WORD
            use_apll := 0
            pin1 := st.Config.pin }
        channel := (adc1_setup hw st st.Config.pin).1
        rawReads := 1 } := by
  simp only [Begin, hf, hb, if_false]

theorem Begin_some (hw : Hw) (ok : Bool) (st : ESPSampler) (r : BeginResult)
    (h : Begin hw ok st = some r) :
    st.Config.samplefrequency ≠ 0 ∧ chunkSize hw st.Config ≠ 0 := by
  by_cases hf : st.Config.samplefrequency = 0
  · simp [Begin, hf] at h
  · by_cases hb : chunkSize hw st.Config = 0
    · simp [Begin, hf, hb] at h
    · exact ⟨hf, hb⟩

theorem mul_two_pos {n m : Nat} (hn : 1 ≤ n) (hm : 1 ≤ m) : 2 ≤ n * m * 2 := by
  have : 1 ≤ n * m := Nat.mul_pos hn hm
  omega

/-- C6 (amended): for every configuration with `numsamples >= 1` and `multisample >= 1`
whose product `numsamples * multisample * 2` does not overflow `size_t` and fits `time_t`
(is below `2^31` where `time_t` is the 32-bit signed type), `Begin` completes whenever
`samplefrequency` is not zero, and with `idealSize = numsamples * multisample * 2` and
`clampedSize = min(idealSize, 1024)` it hands the raw source the buffer size `clampedSize`
and the buffer count `1 + floor(idealSize / clampedSize)`. -/
theorem begin_buffer_count (hw : Hw) (ok : Bool) (st : ESPSampler)
    (hn : 1 ≤ st.Config.numsamples) (hm : 1 ≤ st.Config.multisample)
    (hov : st.Config.numsamples * st.Config.multisample * 2 < 2 ^ 32)
    (hfit : hw.time = time_t.long32 →
      st.Config.numsamples * st.Config.multisample * 2 < 2 ^ 31) :
    (st.Config.samplefrequency ≠ 0 → ∃ r, Begin hw ok st = some r) ∧
    ∀ r, Begin hw ok st = some r →
      r.AConfig.buffer_size = min (st.Config.numsamples * st.Config.multisample * 2) 1024 ∧
      r.AConfig.buffer_count
        = 1 + (st.Config.numsamples * st.Config.multisample * 2)
            / min (st.Config.numsamples * st.Config.multisample * 2) 1024 := by
  have h2 := mul_two_pos hn hm
  have hc := chunkSize_eq hw st.Config hov hfit
  have hb : chunkSize hw st.Config ≠ 0 := by rw [hc]; omega
  refine ⟨fun hf => ⟨_, Begin_eq hw ok st hf hb⟩, fun r hr => ?_⟩
  have hf := (Begin_some hw ok st r hr).1
  rw [Begin_eq hw ok st hf hb] at hr
  have hr' := (Option.some.inj hr).symm
  subst hr'
  refine ⟨hc, ?_⟩
  show (1 + divTimeBySize hw.time (dmaSize hw st.Config) (chunkSize hw st.Config)).toNat = _
  rw [hc, dmaSize_eq hw st.Config hov hfit, divTimeBySize_natCast _ _ _ hov, toNat_one_add]

/-- Witness for C6: the default configuration (1024 samples, multisample 2) with the 32-bit
`time_t`: ideal size 4096, chunk size 1024, buffer count 5. -/
theorem begin_buffer_count_witness :
    1 ≤ ESPSampler.init.Config.numsamples ∧ 1 ≤ ESPSampler.init.Config.multisample ∧
    ESPSampler.init.Config.numsamples * ESPSampler.init.Config.multisample * 2 < 2 ^ 32 ∧
    (hwLegacy.time = time_t.long32 →
      ESPSampler.init.Config.numsamples * ESPSampler.init.Config.multisample * 2 < 2 ^ 31) ∧
    ESPSampler.init.Config.numsamples * ESPSampler.init.Config.multisample * 2 = 4096 ∧
    ESPSampler.init.Config.samplefrequency ≠ 0 ∧
    ∃ r, Begin hwLegacy true ESPSampler.init = some r ∧
      r.AConfig.buffer_size
        = min (ESPSampler.init.Config.numsamples * ESPSampler.init.Config.multisample * 2) 1024 ∧
      r.AConfig.buffer_count
        = 1 + (ESPSampler.init.Config.numsamples * ESPSampler.init.Config.multisample * 2)
            / min (ESPSampler.init.Config.numsamples * ESPSampler.init.Config.multisample * 2) 1024 ∧
      r.AConfig.buffer_size = 1024 ∧ r.AConfig.buffer_count = 5 := by
  refine ⟨by decide, by decide, by decide, fun _ => by decide, by decide, by decide, ?_⟩
  have h := begin_buffer_count hwLegacy true ESPSampler.init (by decide) (by decide) (by decide)
    (fun _ => by decide)
  obtain ⟨r, hr⟩ := h.1 (by decide)
  obtain ⟨h1, h2⟩ := h.2 r hr
  refine ⟨r, hr, h1, h2, ?_, ?_⟩
  · rw [h1]; decide
  · rw [h2]; decide

/-- Counterexample to C6 as stated, three inputs.  First, the default configuration (44100 Hz,
1024 samples, multisample 2): the ideal size is 4096 and the chunk size 1024, but `Begin`
hands over the buffer count 5, while `ceil(4096 / 1024) = 4`.  Second, `numsamples =
2^31 + 256`, `multisample = 1`: the `size_t` product wraps to 512, and `Begin` hands over
chunk size 512 and buffer count 2, while `idealSize = 2^32 + 512`.  Third, the 32-bit
`time_t` with `numsamples = 2^30`, `multisample = 1`: the product `2^31` does not overflow
`size_t` but is negative as `time_t`, so `dmasz < 1024` holds and `Begin` hands over the
chunk size `2^31` and the buffer count 2, while `ceil(2^31 / 1024) = 2^21`. -/
theorem begin_buffer_count_not_ceil :
    (∃ r, Begin hwUnit true ESPSampler.init = some r ∧
      r.AConfig.buffer_size = 1024 ∧
      r.AConfig.buffer_count = 5 ∧
      (ESPSampler.init.Config.numsamples * ESPSampler.init.Config.multisample * 2 + 1024 - 1) / 1024
        = 4) ∧
    (∃ r, Begin hwUnit true (setConfig ESPSampler.init
        { defaultConfig with numsamples := 2147483904, multisample := 1 }) = some r ∧
      r.AConfig.buffer_size = 512 ∧
      r.AConfig.buffer_count = 2 ∧
      (2147483904 * 1 * 2 + 1024 - 1) / 1024 = 4194305) ∧
    (∃ r, Begin hwLegacy true (setConfig ESPSampler.init
        { defaultConfig with numsamples := 1073741824, multisample := 1 }) = some r ∧
      1073741824 * 1 * 2 < 2 ^ 32 ∧
      r.AConfig.buffer_size = 2147483648 ∧
      r.AConfig.buffer_count = 2 ∧
      (1073741824 * 1 * 2 + 1024 - 1) / 1024 = 2097152) :=
  ⟨⟨_, Begin_eq hwUnit true ESPSampler.init (by decide) (by decide), by decide, by decide,
      by decide⟩,
    ⟨_, Begin_eq hwUnit true (setConfig ESPSampler.init
        { defaultConfig with numsamples := 2147483904, multisample := 1 }) (by decide) (by decide),
      by decide, by decide, by decide⟩,
    ⟨_, Begin_eq hwLegacy true (setConfig ESPSampler.init
        { defaultConfig with numsamples := 1073741824, multisample := 1 }) (by decide) (by decide),
      by decide, by decide, by decide, by decide⟩⟩

/-- C7 (amended): for every configuration with `numsamples >= 1` and `multisample >= 1` whose
product `numsamples * multisample * 2` does not overflow `size_t` and fits `time_t` (is
below `2^31` where `time_t` is the 32-bit signed type), `Begin` completes whenever
`samplefrequency` is not zero, and after `Begin` the chunk size `_bufsz` is positive, even,
at most `SMP_MAXBUFFERSIZE = 1024`, equal to `min(numsamples*multisample*2, 1024)`, and
`buffer_count * _bufsz >= numsamples*multisample*2`. -/
theorem begin_chunk_size_invariant (hw : Hw) (ok : Bool) (st : ESPSampler)
    (hn : 1 ≤ st.Config.numsamples) (hm : 1 ≤ st.Config.multisample)
    (hov : st.Config.numsamples * st.Config.multisample * 2 < 2 ^ 32)
    (hfit : hw.time = time_t.long32 →
      st.Config.numsamples * st.Config.multisample * 2 < 2 ^ 31) :
    (st.Config.samplefrequency ≠ 0 → ∃ r, Begin hw ok st = some r) ∧
    ∀ r, Begin hw ok st = some r →
      0 < r.st._bufsz ∧ r.st._bufsz % 2 = 0 ∧ r.st._bufsz ≤ SMP_MAXBUFFERSIZE ∧
      r.st._bufsz = min (st.Config.numsamples * st.Config.multisample * 2) 1024 ∧
      st.Config.numsamples * st.Config.multisample * 2 ≤ r.AConfig.buffer_count * r.st._bufsz := by
  have h2 := mul_two_pos hn hm
  have hc := chunkSize_eq hw st.Config hov hfit
  have hd := dmaSize_eq hw st.Config hov hfit
  have hb : chunkSize hw st.Config ≠ 0 := by rw [hc]; omega
  refine ⟨fun hf => ⟨_, Begin_eq hw ok st hf hb⟩, fun r hr => ?_⟩
  have hf := (Begin_some hw ok st r hr).1
  rw [Begin_eq hw ok st hf hb] at hr
  have hr' := (Option.some.inj hr).symm
  subst hr'
  show 0 < chunkSize hw st.Config ∧ chunkSize hw st.Config % 2 = 0 ∧
    chunkSize hw st.Config ≤ SMP_MAXBUFFERSIZE ∧
    chunkSize hw st.Config = min (st.Config.numsamples * st.Config.multisample * 2) 1024 ∧
    st.Config.numsamples * st.Config.multisample * 2
      ≤ (1 + divTimeBySize hw.time (dmaSize hw st.Config) (chunkSize hw st.Config)).toNat
          * chunkSize hw st.Config
  rw [hd, divTimeBySize_natCast _ _ _ hov, toNat_one_add]
  refine ⟨by omega, ?_, ?_, hc, ?_⟩
  · rw [hc]; omega
  · rw [hc]; unfold SMP_MAXBUFFERSIZE; omega
  · have hlt := @Nat.lt_div_mul_add (st.Config.numsamples * st.Config.multisample * 2)
      (chunkSize hw st.Config) (by omega)
    rw [Nat.add_mul, Nat.one_mul]
    omega

/-- Witness for C7: the default configuration with the 32-bit `time_t`; `Begin` completes with
`_bufsz = 1024`. -/
theorem begin_chunk_size_invariant_witness :
    1 ≤ ESPSampler.init.Config.numsamples ∧ 1 ≤ ESPSampler.init.Config.multisample ∧
    ESPSampler.init.Config.numsamples * ESPSampler.init.Config.multisample * 2 < 2 ^ 32 ∧
    (hwLegacy.time = time_t.long32 →
      ESPSampler.init.Config.numsamples * ESPSampler.init.Config.multisample * 2 < 2 ^ 31) ∧
    ESPSampler.init.Config.samplefrequency ≠ 0 ∧
    ∃ r, Begin hwLegacy true ESPSampler.init = some r ∧
      0 < r.st._bufsz ∧ r.st._bufsz % 2 = 0 ∧ r.st._bufsz ≤ SMP_MAXBUFFERSIZE ∧
      r.st._bufsz
        = min (ESPSampler.init.Config.numsamples * ESPSampler.init.Config.multisample * 2) 1024 ∧
      ESPSampler.init.Config.numsamples * ESPSampler.init.Config.multisample * 2
        ≤ r.AConfig.buffer_count * r.st._bufsz := by
  refine ⟨by decide, by decide, by decide, fun _ => by decide, by decide, ?_⟩
  have h := begin_chunk_size_invariant hwLegacy true ESPSampler.init (by decide) (by decide)
    (by decide) (fun _ => by decide)
  obtain ⟨r, hr⟩ := h.1 (by decide)
  exact ⟨r, hr, h.2 r hr⟩

/-- Counterexample to C7 as stated: the 32-bit `time_t` with `numsamples = 2^30`,
`multisample = 1`.  The product `2^31` does not overflow `size_t`, but converted to `time_t`
it is `-2^31`, so `dmasz < SMP_MAXBUFFERSIZE` holds and `Begin` completes with
`_bufsz = 2^31`, which is above 1024 and is not `min(2^31, 1024)`. -/
theorem begin_chunk_size_negative_dmasz :
    1073741824 * 1 * 2 < 2 ^ 32 ∧
    dmaSize hwLegacy { defaultConfig with numsamples := 1073741824, multisample := 1 }
      = -2147483648 ∧
    ∃ r, Begin hwLegacy true (setConfig ESPSampler.init
        { defaultConfig with numsamples := 1073741824, multisample := 1 }) = some r ∧
      r.st._bufsz = 2147483648 ∧
      ¬ r.st._bufsz ≤ SMP_MAXBUFFERSIZE ∧
      r.st._bufsz ≠ min (1073741824 * 1 * 2) 1024 :=
  ⟨by decide, by decide,
    _, Begin_eq hwLegacy true (setConfig ESPSampler.init
        { defaultConfig with numsamples := 1073741824, multisample := 1 }) (by decide) (by decide),
      by decide, by decide, by decide⟩

/-- C8 (amended): `Begin` detects no failure.  Whenever it completes (`samplefrequency` and
the chunk size are not zero), for every pin, inside or outside the eight-entry table, and
whatever the raw source reports for the start, the session is Running afterwards
(`_running == true`); for a pin outside the table the channel stays unresolved. -/
theorem begin_always_running (hw : Hw) (ok : Bool) (st : ESPSampler)
    (hf : st.Config.samplefrequency ≠ 0) (hb : chunkSize hw st.Config ≠ 0) :
    ∃ r, Begin hw ok st = some r ∧ r.st._running = true ∧
      r.channel = pinChannel st.Config.pin :=
  ⟨_, Begin_eq hw ok st hf hb, rfl, rfl⟩

/-- Witness for C8: the default configuration, the raw source reporting a start failure. -/
theorem begin_always_running_witness :
    ESPSampler.init.Config.samplefrequency ≠ 0 ∧ chunkSize hwUnit ESPSampler.init.Config ≠ 0 ∧
    ∃ r, Begin hwUnit false ESPSampler.init = some r ∧ r.st._running = true ∧
      r.channel = pinChannel ESPSampler.init.Config.pin :=
  ⟨by decide, by decide, begin_always_running hwUnit false ESPSampler.init (by decide) (by decide)⟩

/-- Counterexample to C8 as stated, two inputs.  First, the default configuration (pin 34,
inside the table) with a raw source that reports a start failure: `Begin` completes with
`_running == true`.  Second, pin 25 (outside GPIO 32..39): the channel is not resolved and
`Begin` completes with `_running == true` all the same. -/
theorem begin_failure_leaves_running :
    (∃ r, Begin hwUnit false ESPSampler.init = some r ∧ r.st._running = true) ∧
    pinChannel 25 = none ∧
    (∃ r, Begin hwUnit true (setConfig ESPSampler.init { defaultConfig with pin := 25 }) = some r ∧
      r.channel = none ∧ r.st._running = true) :=
  ⟨⟨_, Begin_eq hwUnit false ESPSampler.init (by decide) (by decide), by decide⟩,
    by decide,
    ⟨_, Begin_eq hwUnit true (setConfig ESPSampler.init { defaultConfig with pin := 25 })
      (by decide) (by decide), by decide, by decide⟩⟩

theorem exec_keeps_running (hw : Hw) (st st' : ESPSampler) (c : Call)
    (hc : c.isEnd = false) (hrun : st._running = true) (h : exec hw st c = some st') :
    st'._running = true := by
  cases c with
  | defaultConfig =>
    simp only [exec, Option.some.injEq] at h
    rw [← h]; exact hrun
  | setConfig cfg =>
    simp only [exec, setConfig, Option.some.injEq] at h
    rw [← h]; exact hrun
  | getConfig =>
    simp only [exec, getConfig, Option.some.injEq] at h
    rw [← h]
    cases hr : st.rconfig <;> simp [hrun]
  | Begin ok =>
    simp only [exec, Option.map_eq_some'] at h
    obtain ⟨r, hr, hst⟩ := h
    obtain ⟨hf, hb⟩ := Begin_some hw ok st r hr
    rw [Begin_eq hw ok st hf hb] at hr
    rw [← hst, ← Option.some.inj hr]
  | End => simp [Call.isEnd] at hc
  | Collect src fuel B len =>
    simp only [exec, Option.map_eq_some'] at h
    obtain ⟨r, hr, hst⟩ := h
    rw [← hst]
    unfold Collect at hr
    split at hr
    · cases hr
    · split at hr
      · split at hr
        · cases hr
        · rw [← Option.some.inj hr]; exact hrun
      · rw [← Option.some.inj hr]; exact hrun
  | Measure adc fuel pin d =>
    simp only [exec, Measure, hrun, if_true, Option.map_some', Option.some.injEq] at h
    rw [← h]; exact hrun
  | routeVref ok =>
    simp only [exec, routeVref, Option.some.injEq] at h
    rw [← h]; exact hrun

theorem run_keeps_running (hw : Hw) :
    ∀ (calls : List Call) (st st' : ESPSampler), (∀ c ∈ calls, c.isEnd = false) →
      st._running = true → run hw st calls = some st' → st'._running = true := by
  intro calls
  induction calls with
  | nil =>
    intro st st' _ hrun h
    simp only [run, Option.some.injEq] at h
    rw [← h]; exact hrun
  | cons c cs ih =>
    intro st st' hall hrun h
    simp only [run, Option.bind_eq_some] at h
    obtain ⟨st1, h1, h2⟩ := h
    exact ih st1 st' (fun c' hc' => hall c' (List.mem_cons_of_mem _ hc'))
      (exec_keeps_running hw st st1 c (hall c (List.mem_cons_self _ _)) hrun h1) h2

/-- C9: in every state reached by `Begin()` followed by any calls other than `End()`,
`Measure(pin, d)` returns 0 for every pin and every `d`, makes no `adc1_get_raw` call, and
leaves the engine record (running flag, calibration characteristics, configuration)
unchanged. -/
theorem measure_rejected_while_running (hw : Hw) (st0 st : ESPSampler) (ok : Bool)
    (calls : List Call) (adc : Nat → Nat) (fuel : Nat) (pin d : Int)
    (hcalls : ∀ c ∈ calls, c.isEnd = false)
    (hreach : run hw st0 (Call.Begin ok :: calls) = some st) :
    Measure hw adc fuel st pin d = some ⟨0, 0, st⟩ := by
  have hrun : st._running = true := by
    simp only [run, Option.bind_eq_some] at hreach
    obtain ⟨st1, h1, h2⟩ := hreach
    have hb : st1._running = true :=
      by
        simp only [exec, Option.map_eq_some'] at h1
        obtain ⟨r, hr, hst⟩ := h1
        obtain ⟨hf, hb⟩ := Begin_some hw ok st0 r hr
        rw [Begin_eq hw ok st0 hf hb] at hr
        rw [← hst, ← Option.some.inj hr]
    exact run_keeps_running hw calls st1 st hcalls hb h2
  simp only [Measure, hrun, if_true]

/-- Witness for C9: `Begin`, then `setConfig`, then a `Collect` of two samples; `Measure` on
pin 39 for 512 ticks is rejected. -/
theorem measure_rejected_while_running_witness :
    (∀ c ∈ [Call.setConfig { defaultConfig with numsamples := 512 },
        Call.Collect srcRamp 4 (fun _ => 0) 2], c.isEnd = false) ∧
    run hwUnit ESPSampler.init
      (Call.Begin true :: [Call.setConfig { defaultConfig with numsamples := 512 },
        Call.Collect srcRamp 4 (fun _ => 0) 2]) = some stRunning ∧
    Measure hwUnit (fun _ => 1000) 512 stRunning 39 512 = some ⟨0, 0, stRunning⟩ :=
  ⟨by intro c hc; simp only [List.mem_cons, List.mem_singleton, List.not_mem_nil, or_false] at hc
      rcases hc with rfl | rfl <;> rfl,
    by decide,
    measure_rejected_while_running hwUnit ESPSampler.init stRunning true
      [Call.setConfig { defaultConfig with numsamples := 512 },
        Call.Collect srcRamp 4 (fun _ => 0) 2] (fun _ => 1000) 512 39 512
      (by intro c hc; simp only [List.mem_cons, List.mem_singleton, List.not_mem_nil, or_false] at hc
          rcases hc with rfl | rfl <;> rfl)
      (by decide)⟩

/-- C10 (the code on a failing sequence): `getConfig()`, then `setConfig(c)` with
`c.numsamples = 512`, then `getConfig()` again.  The active configuration is `c`, but the
second `getConfig()` returns the defaults: the static `rconfig` was initialised by the first
call and is never assigned again. -/
theorem getConfig_stale :
    (setConfig (getConfig ESPSampler.init).2 { defaultConfig with numsamples := 512 }).Config
      = { defaultConfig with numsamples := 512 } ∧
    (getConfig (setConfig (getConfig ESPSampler.init).2
      { defaultConfig with numsamples := 512 })).1 = defaultConfig ∧
    defaultConfig ≠ { defaultConfig with numsamples := 512 } := by
  decide


/-- C11 (the code on a failing sequence): `getConfig()`, `setConfig(c)` with
`c.numsamples = 512`, then `setConfig(getConfig())`.  Before the round trip the active
configuration is `c`; the round trip copies the stale static `rconfig` (the defaults) into
`Config`, so afterwards the active configuration is the defaults.  Only the value returned
by `getConfig()` is the same before and after. -/
theorem setConfig_getConfig_reverts :
    (setConfig (getConfig ESPSampler.init).2 { defaultConfig with numsamples := 512 }).Config
      = { defaultConfig with numsamples := 512 } ∧
    (setConfig
      (getConfig (setConfig (getConfig ESPSampler.init).2
        { defaultConfig with numsamples := 512 })).2
      (getConfig (setConfig (getConfig ESPSampler.init).2
        { defaultConfig with numsamples := 512 })).1).Config = defaultConfig ∧
    defaultConfig ≠ { defaultConfig with numsamples := 512 } ∧
    (getConfig (setConfig
      (getConfig (setConfig (getConfig ESPSampler.init).2
        { defaultConfig with numsamples := 512 })).2
      (getConfig (setConfig (getConfig ESPSampler.init).2
        { defaultConfig with numsamples := 512 })).1)).1
      = (getConfig (setConfig (getConfig ESPSampler.init).2
        { defaultConfig with numsamples := 512 })).1 := by
  decide

/-- C12: from every state `End()` leaves the session Idle (`_running == false`), and a second
`End()` right after the first leaves the whole engine record (running flag, configuration,
chunk size, `AcZero`, `CollectTime` and the rest) exactly as the first left it. -/
theorem end_idempotent (st : ESPSampler) :
    (End st)._running = false ∧ End (End st) = End st ∧
    (End (End st))._running = false ∧ (End (End st)).Config = (End st).Config ∧
    (End (End st))._bufsz = (End st)._bufsz ∧ (End (End st)).AcZero = (End st).AcZero ∧
    (End (End st)).CollectTime = (End st).CollectTime :=
  ⟨rfl, rfl, rfl, rfl, rfl, rfl, rfl⟩

theorem exec_keeps_config (hw : Hw) (st st' : ESPSampler) (c : Call)
    (hc : c.isSetConfig = false) (h : exec hw st c = some st') : st'.Config = st.Config := by
  cases c with
  | defaultConfig =>
    simp only [exec, Option.some.injEq] at h
    rw [← h]
  | setConfig cfg => simp [Call.isSetConfig] at hc
  | getConfig =>
    simp only [exec, getConfig, Option.some.injEq] at h
    rw [← h]
    cases hr : st.rconfig <;> rfl
  | Begin ok =>
    simp only [exec, Option.map_eq_some'] at h
    obtain ⟨r, hr, hst⟩ := h
    obtain ⟨hf, hb⟩ := Begin_some hw ok st r hr
    rw [Begin_eq hw ok st hf hb] at hr
    rw [← hst, ← Option.some.inj hr]
    rfl
  | End =>
    simp only [exec, End, Option.some.injEq] at h
    rw [← h]
  | Collect src fuel B len =>
    simp only [exec, Option.map_eq_some'] at h
    obtain ⟨r, hr, hst⟩ := h
    rw [← hst]
    unfold Collect at hr
    split at hr
    · cases hr
    · split at hr
      · split at hr
        · cases hr
        · rw [← Option.some.inj hr]
      · rw [← Option.some.inj hr]
  | Measure adc fuel pin d =>
    simp only [exec, Option.map_eq_some'] at h
    obtain ⟨r, hr, hst⟩ := h
    rw [← hst]
    unfold Measure at hr
    split at hr
    · rw [← Option.some.inj hr]
    · split at hr
      · cases hr
      · rw [← Option.some.inj hr]
        rfl
  | routeVref ok =>
    simp only [exec, routeVref, Option.some.injEq] at h
    rw [← h]

theorem run_keeps_config (hw : Hw) :
    ∀ (calls : List Call) (st st' : ESPSampler), (∀ c ∈ calls, c.isSetConfig = false) →
      run hw st calls = some st' → st'.Config = st.Config := by
  intro calls
  induction calls with
  | nil =>
    intro st st' _ h
    simp only [run, Option.some.injEq] at h
    rw [← h]
  | cons c cs ih =>
    intro st st' hall h
    simp only [run, Option.bind_eq_some] at h
    obtain ⟨st1, h1, h2⟩ := h
    rw [ih st1 st' (fun c' hc' => hall c' (List.mem_cons_of_mem _ hc')) h2]
    exact exec_keeps_config hw st st1 c (hall c (List.mem_cons_self _ _)) h1

/-- C15: `defaultConfig()` returns exactly pin GPIO 34, the `float` nearest to 3.3 as
ceiling, 44100 Hz, 1024 samples, mode DC, multisample 2 and extrabuffers 0; and in every
state reached from the freshly constructed engine by calls other than `setConfig`, the
active configuration equals `defaultConfig()`. -/
theorem default_config (hw : Hw) (calls : List Call) (st : ESPSampler)
    (hcalls : ∀ c ∈ calls, c.isSetConfig = false)
    (hreach : run hw ESPSampler.init calls = some st) :
    defaultConfig = { pin := 34, vmax := floatOfDouble (doubleLit 33 10),
                      samplefrequency := 44100, numsamples := 1024,
                      mode := SamplerMode.SMODE_DC, multisample := 2, extrabuffers := 0 } ∧
    ESPSampler.init.Config = defaultConfig ∧
    st.Config = defaultConfig := by
  refine ⟨rfl, rfl, ?_⟩
  rw [run_keeps_config hw calls ESPSampler.init st hcalls hreach]
  rfl

/-- Witness for C15: `Begin`, a `Collect` of two samples, `getConfig` and `End` on the fresh
engine; the active configuration is still the default one. -/
theorem default_config_witness :
    (∀ c ∈ [Call.Begin true, Call.Collect srcRamp 4 (fun _ => 0) 2, Call.getConfig, Call.End],
      c.isSetConfig = false) ∧
    run hwUnit ESPSampler.init
      [Call.Begin true, Call.Collect srcRamp 4 (fun _ => 0) 2, Call.getConfig, Call.End]
        = some { stRunning with _running := false, Config := defaultConfig,
                                rconfig := some defaultConfig } ∧
    defaultConfig = { pin := 34, vmax := floatOfDouble (doubleLit 33 10),
                      samplefrequency := 44100, numsamples := 1024,
                      mode := SamplerMode.SMODE_DC, multisample := 2, extrabuffers := 0 } ∧
    ESPSampler.init.Config = defaultConfig ∧
    ({ stRunning with _running := false, Config := defaultConfig,
                      rconfig := some defaultConfig } : ESPSampler).Config = defaultConfig :=
  ⟨by intro c hc
      simp only [List.mem_cons, List.mem_singleton, List.not_mem_nil, or_false] at hc
      rcases hc with rfl | rfl | rfl | rfl <;> rfl,
    by decide,
    default_config hwUnit
      [Call.Begin true, Call.Collect srcRamp 4 (fun _ => 0) 2, Call.getConfig, Call.End]
      { stRunning with _running := false, Config := defaultConfig, rconfig := some defaultConfig }
      (by intro c hc
          simp only [List.mem_cons, List.mem_singleton, List.not_mem_nil, or_false] at hc
          rcases hc with rfl | rfl | rfl | rfl <;> rfl)
      (by decide)⟩


/-! ## Flag bits and frame of `Collect` -/

theorem mask12_toSample (u : Nat) : mask12 (toSample (u : Int)) = u % 4096 := by
  unfold mask12 toSample
  omega

theorem readCell_mask (chunk : List Nat) (p : Nat) :
    (readCell chunk p).map mask12
      = if 2 * p + 1 < chunk.length then some (cellAt chunk p % 4096) else none := by
  unfold readCell
  split
  · simp only [Option.map_some', mask12_toSample]
    rfl
  · rfl

theorem refill_sim {src1 src2 : RawSource} {bufsz : Nat} {r1 r2 : Reader}
    (hs : SameCodes src1 src2 bufsz) (h : ReaderSim r1 r2) :
    ReaderSim (refill src1 bufsz r1) (refill src2 bufsz r2) := by
  obtain ⟨h1, h2, h3, h4, h5, h6⟩ := h
  unfold refill
  rw [← h1]
  split
  · rw [← h3]
    exact ⟨(hs r1.pulled).1, rfl, by rw [h3], h4, (hs r1.pulled).1, (hs r1.pulled).2⟩
  · exact ⟨h1, h2, h3, h4, h5, h6⟩

theorem fetch_sim {src1 src2 : RawSource} {bufsz : Nat} {r1 r2 : Reader}
    (hs : SameCodes src1 src2 bufsz) (h : ReaderSim r1 r2) :
    (fetch src1 bufsz r1 = none ∧ fetch src2 bufsz r2 = none) ∨
    ∃ c r1' r2', fetch src1 bufsz r1 = some (c, r1') ∧ fetch src2 bufsz r2 = some (c, r2') ∧
      ReaderSim r1' r2' := by
  obtain ⟨h1, h2, h3, h4, h5, h6⟩ := refill_sim hs h
  have e1 := readCell_mask (refill src1 bufsz r1).chunk (refill src1 bufsz r1).rawptr
  have e2 := readCell_mask (refill src2 bufsz r2).chunk (refill src2 bufsz r2).rawptr
  rw [← h2, ← h5] at e2
  by_cases hin : 2 * (refill src1 bufsz r1).rawptr + 1 < (refill src1 bufsz r1).chunk.length
  · rw [if_pos hin] at e1 e2
    rw [← h6 _ hin] at e2
    right
    cases hc1 : readCell (refill src1 bufsz r1).chunk (refill src1 bufsz r1).rawptr with
    | none => rw [hc1] at e1; cases e1
    | some x1 =>
      cases hc2 : readCell (refill src2 bufsz r2).chunk (refill src1 bufsz r1).rawptr with
      | none => rw [hc2] at e2; cases e2
      | some x2 =>
        rw [hc1] at e1
        rw [hc2] at e2
        have hx1 : mask12 x1 = cellAt (refill src1 bufsz r1).chunk (refill src1 bufsz r1).rawptr
            % 4096 := Option.some.inj e1
        have hx2 : mask12 x2 = cellAt (refill src1 bufsz r1).chunk (refill src1 bufsz r1).rawptr
            % 4096 := Option.some.inj e2
        rw [h2] at hc2
        refine ⟨mask12 x1,
          ⟨decCnt (refill src1 bufsz r1).cnt, (refill src1 bufsz r1).rawptr + 1,
            (refill src1 bufsz r1).chunk, (refill src1 bufsz r1).pulled,
            (refill src1 bufsz r1).codes + 1⟩,
          ⟨decCnt (refill src2 bufsz r2).cnt, (refill src2 bufsz r2).rawptr + 1,
            (refill src2 bufsz r2).chunk, (refill src2 bufsz r2).pulled,
            (refill src2 bufsz r2).codes + 1⟩, ?_, ?_, ?_⟩
        · simp only [fetch, hc1]
        · simp only [fetch, hc2, hx1, hx2]
        · exact ⟨by simp only [h1], by simp only [h2], h3, by simp only [h4], h5, h6⟩
  · rw [if_neg hin] at e1 e2
    left
    have n1 : readCell (refill src1 bufsz r1).chunk (refill src1 bufsz r1).rawptr = none := by
      cases hc1 : readCell (refill src1 bufsz r1).chunk (refill src1 bufsz r1).rawptr with
      | none => rfl
      | some x1 => rw [hc1] at e1; cases e1
    have n2 : readCell (refill src2 bufsz r2).chunk (refill src2 bufsz r2).rawptr = none := by
      rw [← h2]
      cases hc2 : readCell (refill src2 bufsz r2).chunk (refill src1 bufsz r1).rawptr with
      | none => rfl
      | some x2 => rw [hc2] at e2; cases e2
    exact ⟨by simp only [fetch, n1], by simp only [fetch, n2]⟩

theorem collectLoop_sim {cal : Nat → Nat} {src1 src2 : RawSource} {bufsz m len : Nat}
    (hs : SameCodes src1 src2 bufsz) :
    ∀ fuel r1 r2 a, ReaderSim r1 r2 →
      (collectLoop cal src1 bufsz m len fuel r1 a = none ∧
        collectLoop cal src2 bufsz m len fuel r2 a = none) ∨
      ∃ r1' r2' a', collectLoop cal src1 bufsz m len fuel r1 a = some (r1', a') ∧
        collectLoop cal src2 bufsz m len fuel r2 a = some (r2', a') ∧ ReaderSim r1' r2' := by
  intro fuel
  induction fuel with
  | zero =>
    intro r1 r2 a h
    by_cases hn : a.numread < len
    · left; simp [collectLoop, hn]
    · right; exact ⟨r1, r2, a, by simp [collectLoop, hn], by simp [collectLoop, hn], h⟩
  | succ f ih =>
    intro r1 r2 a h
    by_cases hn : a.numread < len
    · rcases fetch_sim hs h with ⟨f1, f2⟩ | ⟨c, r1', r2', f1, f2, hsim⟩
      · left; simp [collectLoop, hn, f1, f2]
      · simp only [collectLoop, hn, if_true, f1, f2]
        exact ih r1' r2' (accumulate m a (cal c)) hsim
    · right; exact ⟨r1, r2, a, by simp [collectLoop, hn], by simp [collectLoop, hn], h⟩

/-- C16: for any two raw streams that deliver chunks of the same lengths and whose 16-bit
cells agree on their low 12 bits (the upper 4 bits, sign bit included, being arbitrary),
`Collect` with the same engine state, calibration, buffer, length and fuel has the same
outcome: in particular the same output buffer and the same `AcZero`. -/
theorem collect_ignores_flag_bits (hw : Hw) (src1 src2 : RawSource) (fuel : Nat)
    (st : ESPSampler) (B : Nat → Int) (len : Nat) (hs : SameCodes src1 src2 st._bufsz) :
    Collect hw src1 fuel st B len = Collect hw src2 fuel st B len ∧
    ∀ res1 res2, Collect hw src1 fuel st B len = some res1 →
      Collect hw src2 fuel st B len = some res2 →
      res1.Buffer = res2.Buffer ∧ res1.st.AcZero = res2.st.AcZero := by
  have heq : Collect hw src1 fuel st B len = Collect hw src2 fuel st B len := by
    have h0 : ReaderSim ⟨0, 0, [], 0, 0⟩ ⟨0, 0, [], 0, 0⟩ :=
      ⟨rfl, rfl, rfl, rfl, rfl, fun _ _ => rfl⟩
    rcases @collectLoop_sim (calOf hw st) src1 src2 st._bufsz st.Config.multisample len hs
      fuel _ _ ⟨0, 0, 0, 0, B⟩ h0 with ⟨l1, l2⟩ | ⟨r1', r2', a', l1, l2, hsim⟩
    · simp only [Collect, l1, l2]
    · obtain ⟨-, -, h3, h4, -, -⟩ := hsim
      simp only [Collect, l1, l2, h3, h4]
  refine ⟨heq, fun res1 res2 h1 h2 => ?_⟩
  rw [heq, h2] at h1
  cases h1
  exact ⟨rfl, rfl⟩


theorem sameCodes_ramp_flagged (bufsz : Nat) : SameCodes srcRamp srcFlagged bufsz := by
  intro k
  refine ⟨rfl, fun p hp => ?_⟩
  have hp' : 2 * p + 1 < 8 := hp
  have h4 : p < 4 := by omega
  show cellAt [1, 0, 2, 0, 3, 0, 255, 255] p % 4096 = cellAt [1, 240, 2, 16, 3, 128, 255, 15] p % 4096
  interval_cases p <;> decide

/-- Witness for C16: the codes 1, 2, 3, 4095 under two different sets of flag bits, AC mode,
averaging factor 2, three outputs: both runs store `AcZero = 683`. -/
theorem collect_ignores_flag_bits_witness :
    SameCodes srcRamp srcFlagged (stWith SamplerMode.SMODE_AC 2 8)._bufsz ∧
    (Collect hwUnit srcRamp 6 (stWith SamplerMode.SMODE_AC 2 8) (fun _ => 7) 3).map
      (fun r => r.st.AcZero) = some 683 ∧
    Collect hwUnit srcRamp 6 (stWith SamplerMode.SMODE_AC 2 8) (fun _ => 7) 3
      = Collect hwUnit srcFlagged 6 (stWith SamplerMode.SMODE_AC 2 8) (fun _ => 7) 3 ∧
    ∀ res1 res2,
      Collect hwUnit srcRamp 6 (stWith SamplerMode.SMODE_AC 2 8) (fun _ => 7) 3 = some res1 →
      Collect hwUnit srcFlagged 6 (stWith SamplerMode.SMODE_AC 2 8) (fun _ => 7) 3 = some res2 →
      res1.Buffer = res2.Buffer ∧ res1.st.AcZero = res2.st.AcZero :=
  ⟨sameCodes_ramp_flagged _, by decide,
    collect_ignores_flag_bits hwUnit srcRamp srcFlagged 6 (stWith SamplerMode.SMODE_AC 2 8)
      (fun _ => 7) 3 (sameCodes_ramp_flagged _)⟩

theorem Collect_dc_of_loop {hw : Hw} {src : RawSource} {fuel : Nat} {st : ESPSampler}
    {B : Nat → Int} {len : Nat} {r : Reader} {a : Acc}
    (hmode : st.Config.mode = SamplerMode.SMODE_DC)
    (hloop : collectLoop (calOf hw st) src st._bufsz st.Config.multisample len fuel
      ⟨0, 0, [], 0, 0⟩ ⟨0, 0, 0, 0, B⟩ = some (r, a)) :
    Collect hw src fuel st B len = some ⟨st, a.Buffer, a.numread, r.pulled, r.codes⟩ := by
  simp only [Collect, hloop, hmode]
  rfl

theorem Collect_loop_of_some {hw : Hw} {src : RawSource} {fuel : Nat} {st : ESPSampler}
    {B : Nat → Int} {len : Nat} {res : CollectResult}
    (h : Collect hw src fuel st B len = some res) :
    ∃ r a, collectLoop (calOf hw st) src st._bufsz st.Config.multisample len fuel
      ⟨0, 0, [], 0, 0⟩ ⟨0, 0, 0, 0, B⟩ = some (r, a) := by
  cases hl : collectLoop (calOf hw st) src st._bufsz st.Config.multisample len fuel
      ⟨0, 0, [], 0, 0⟩ ⟨0, 0, 0, 0, B⟩ with
  | none => simp [Collect, hl] at h
  | some ra => exact ⟨ra.1, ra.2, rfl⟩

theorem accumulate_frame (m : Nat) (a : Acc) (mv : Nat) :
    a.numread ≤ (accumulate m a mv).numread ∧
    ∀ k, k < a.numread → (accumulate m a mv).Buffer k = a.Buffer k := by
  unfold accumulate
  split
  · refine ⟨by simp only; omega, fun k hk => ?_⟩
    simp only
    rw [Function.update_noteq (by omega)]
  · exact ⟨le_refl _, fun _ _ => rfl⟩

theorem collectLoop_frame (cal : Nat → Nat) (src : RawSource) (bufsz m len : Nat) :
    ∀ fuel r a r' a', collectLoop cal src bufsz m len fuel r a = some (r', a') →
      a.numread ≤ a'.numread ∧ ∀ k, k < a.numread → a'.Buffer k = a.Buffer k := by
  intro fuel
  induction fuel with
  | zero =>
    intro r a r' a' h
    by_cases hn : a.numread < len
    · simp [collectLoop, hn] at h
    · simp only [collectLoop, hn, if_false, Option.some.injEq, Prod.mk.injEq] at h
      rw [← h.2]
      exact ⟨le_refl _, fun _ _ => rfl⟩
  | succ f ih =>
    intro r a r' a' h
    by_cases hn : a.numread < len
    · simp only [collectLoop, hn, if_true] at h
      cases hf : fetch src bufsz r with
      | none => simp [hf] at h
      | some x =>
        rw [hf] at h
        obtain ⟨h1, h2⟩ := ih _ _ _ _ h
        obtain ⟨g1, g2⟩ := accumulate_frame m a (cal x.1)
        exact ⟨le_trans g1 h1, fun k hk => by rw [h2 k (by omega), g2 k hk]⟩
    · simp only [collectLoop, hn, if_false, Option.some.injEq, Prod.mk.injEq] at h
      rw [← h.2]
      exact ⟨le_refl _, fun _ _ => rfl⟩

/-- C18: the stored `AcZero` is 2048 on the fresh engine; every `Collect` call in DC mode
that returns leaves the engine record, hence `AcZero`, unchanged and hands back the buffer
exactly as its loop left it; and the loop, continued from any point, never rewrites a
sample it has already emitted (an index below `numread`). -/
theorem collect_dc_frame (hw : Hw) (src : RawSource) (fuel : Nat) (st : ESPSampler)
    (B : Nat → Int) (len : Nat) (hmode : st.Config.mode = SamplerMode.SMODE_DC) :
    ESPSampler.init.AcZero = 2048 ∧
    (∀ res, Collect hw src fuel st B len = some res →
      res.st = st ∧ res.st.AcZero = st.AcZero ∧
      ∃ r a, collectLoop (calOf hw st) src st._bufsz st.Config.multisample len fuel
          ⟨0, 0, [], 0, 0⟩ ⟨0, 0, 0, 0, B⟩ = some (r, a) ∧ res.Buffer = a.Buffer) ∧
    (∀ n r a r' a',
      collectLoop (calOf hw st) src st._bufsz st.Config.multisample len n r a = some (r', a') →
      ∀ k, k < a.numread → a'.Buffer k = a.Buffer k) := by
  refine ⟨rfl, fun res hres => ?_, fun n r a r' a' h => (collectLoop_frame _ _ _ _ _ n r a r' a' h).2⟩
  obtain ⟨r, a, hloop⟩ := Collect_loop_of_some hres
  rw [Collect_dc_of_loop hmode hloop] at hres
  cases hres
  exact ⟨rfl, rfl, r, a, hloop, rfl⟩

/-- Witness for C18: DC mode, averaging factor 2, three outputs; `Collect` returns and
`AcZero` is still 2048. -/
theorem collect_dc_frame_witness :
    (stWith SamplerMode.SMODE_DC 2 8).Config.mode = SamplerMode.SMODE_DC ∧
    (Collect hwUnit srcRamp 6 (stWith SamplerMode.SMODE_DC 2 8) (fun _ => 7) 3).map
      (fun r => r.st.AcZero) = some 2048 ∧
    ESPSampler.init.AcZero = 2048 ∧
    (∀ res, Collect hwUnit srcRamp 6 (stWith SamplerMode.SMODE_DC 2 8) (fun _ => 7) 3 = some res →
      res.st = stWith SamplerMode.SMODE_DC 2 8 ∧
      res.st.AcZero = (stWith SamplerMode.SMODE_DC 2 8).AcZero ∧
      ∃ r a, collectLoop (calOf hwUnit (stWith SamplerMode.SMODE_DC 2 8)) srcRamp
          (stWith SamplerMode.SMODE_DC 2 8)._bufsz
          (stWith SamplerMode.SMODE_DC 2 8).Config.multisample 3 6
          ⟨0, 0, [], 0, 0⟩ ⟨0, 0, 0, 0, fun _ => 7⟩ = some (r, a) ∧ res.Buffer = a.Buffer) ∧
    (∀ n r a r' a',
      collectLoop (calOf hwUnit (stWith SamplerMode.SMODE_DC 2 8)) srcRamp
        (stWith SamplerMode.SMODE_DC 2 8)._bufsz
        (stWith SamplerMode.SMODE_DC 2 8).Config.multisample 3 n r a = some (r', a') →
      ∀ k, k < a.numread → a'.Buffer k = a.Buffer k) :=
  ⟨rfl, by decide,
    collect_dc_frame hwUnit srcRamp 6 (stWith SamplerMode.SMODE_DC 2 8) (fun _ => 7) 3 rfl⟩


/-! ## Exact arithmetic of `Collect` when no sample exceeds the 16-bit range -/

theorem collectLoop_exact (cal : Nat → Nat) (src : RawSource) (bufsz m len fuel : Nat)
    (B : Nat → Int) (hm : 1 ≤ m) (hsrc : EvenChunks src bufsz) (hfuel : len * m ≤ fuel)
    (hcal : ∀ code, code < 4096 → cal code ≤ 32767) :
    ∃ a, collectLoop cal src bufsz m len fuel ⟨0, 0, [], 0, 0⟩ ⟨0, 0, 0, 0, B⟩
        = some (readerAt src bufsz (len * m), a) ∧
      a.numread = len ∧
      a.avg = (∑ i ∈ Finset.range len, groupMean (fun k => cal (codeAt
          (concatChunks src bufsz (readerAt src bufsz (len * m)).pulled) k)) m i) % WORD ∧
      (∀ i, i < len → a.Buffer i = (groupMean (fun k => cal (codeAt
          (concatChunks src bufsz (readerAt src bufsz (len * m)).pulled) k)) m i : Nat)) ∧
      (∀ i, groupMean (fun k => cal (codeAt
          (concatChunks src bufsz (readerAt src bufsz (len * m)).pulled) k)) m i ≤ 32767) ∧
      (∑ i ∈ Finset.range len, a.Buffer i)
        = ((∑ i ∈ Finset.range len, groupMean (fun k => cal (codeAt
          (concatChunks src bufsz (readerAt src bufsz (len * m)).pulled) k)) m i : Nat) : Int) ∧
      (∑ i ∈ Finset.range len, groupMean (fun k => cal (codeAt
          (concatChunks src bufsz (readerAt src bufsz (len * m)).pulled) k)) m i)
        ≤ len * 32767 := by
  obtain ⟨a, hloop, hnum, havg, hbuf⟩ := collectLoop_spec cal src bufsz m len fuel B hm hsrc hfuel
  obtain ⟨g, hg⟩ : ∃ g : Nat → Nat, g = fun k => cal (codeAt (concatChunks src bufsz
      (readerAt src bufsz (len * m)).pulled) k) := ⟨_, rfl⟩
  rw [← hg] at havg hbuf ⊢
  have hqle : ∀ i, groupMean g m i ≤ 32767 := fun i =>
    groupMean_le g _ i (fun k => by rw [hg]; exact hcal _ (codeAt_lt _ _))
  have hbufq : ∀ i, i < len → a.Buffer i = (groupMean g m i : Int) := by
    intro i hi
    rw [hbuf i, if_pos hi]
    exact toSample_natCast _ (hqle i)
  have hsle : (∑ i ∈ Finset.range len, groupMean g m i) ≤ len * 32767 := by
    have := Finset.sum_le_card_nsmul (Finset.range len) (fun i => groupMean g m i) 32767
      (fun i _ => hqle i)
    rwa [Finset.card_range, smul_eq_mul] at this
  have hS : (∑ i ∈ Finset.range len, a.Buffer i)
      = ((∑ i ∈ Finset.range len, groupMean g m i : Nat) : Int) := by
    rw [Nat.cast_sum]
    exact Finset.sum_congr rfl (fun i hi => hbufq i (Finset.mem_range.mp hi))
  exact ⟨a, hloop, hnum, havg, hbufq, hqle, hS, hsle⟩

/-- C17: for every multisample `m` with `1 <= m <= 65536`, every `len <= 65536` and every
calibration whose values (on the 12-bit codes) lie in `[0, 32767]`, on a raw source with
even chunks the loop of `Collect` returns, and neither 32-bit accumulator wraps: every group
sum and the grand sum are below `2^32`, every emitted sample is the exact quotient
`floor(sum / m)`, lies in `[0, 32767]`, and `avg` is the exact sum of the emitted samples;
in DC mode `Collect` returns these samples, in AC mode (with `len >= 1`) it stores
`AcZero = floor(S / len)` exactly, a value in `[0, 32767]`. -/
theorem no_accumulator_wrap (hw : Hw) (src : RawSource) (fuel : Nat) (st : ESPSampler)
    (B : Nat → Int) (len : Nat)
    (hm1 : 1 ≤ st.Config.multisample) (hm2 : st.Config.multisample ≤ 65536)
    (hlen : len ≤ 65536)
    (hcal : ∀ code, code < 4096 → calOf hw st code ≤ 32767)
    (hsrc : EvenChunks src st._bufsz) (hfuel : len * st.Config.multisample ≤ fuel) :
    ∃ r a,
      collectLoop (calOf hw st) src st._bufsz st.Config.multisample len fuel
        ⟨0, 0, [], 0, 0⟩ ⟨0, 0, 0, 0, B⟩ = some (r, a) ∧
      (∀ i, i < len →
        (∑ j ∈ Finset.range st.Config.multisample,
          calOf hw st (codeAt (concatChunks src st._bufsz r.pulled)
            (i * st.Config.multisample + j))) < 2 ^ 32 ∧
        a.Buffer i = (((∑ j ∈ Finset.range st.Config.multisample,
          calOf hw st (codeAt (concatChunks src st._bufsz r.pulled)
            (i * st.Config.multisample + j))) / st.Config.multisample : Nat) : Int) ∧
        0 ≤ a.Buffer i ∧ a.Buffer i ≤ 32767) ∧
      (∑ i ∈ Finset.range len, a.Buffer i) < 2 ^ 32 ∧
      (a.avg : Int) = ∑ i ∈ Finset.range len, a.Buffer i ∧
      (st.Config.mode = SamplerMode.SMODE_DC →
        ∃ res, Collect hw src fuel st B len = some res ∧
          ∀ i, i < len → res.Buffer i = a.Buffer i) ∧
      (st.Config.mode = SamplerMode.SMODE_AC → 1 ≤ len →
        ∃ res, Collect hw src fuel st B len = some res ∧
          res.st.AcZero = (∑ i ∈ Finset.range len, a.Buffer i) / (len : Int) ∧
          0 ≤ res.st.AcZero ∧ res.st.AcZero ≤ 32767) := by
  obtain ⟨a, hloop, hnum, havg, hbufq, hqle, hS, hsle⟩ := collectLoop_exact (calOf hw st) src
    st._bufsz st.Config.multisample len fuel B hm1 hsrc hfuel hcal
  obtain ⟨g, hg⟩ : ∃ g : Nat → Nat, g = fun k => calOf hw st (codeAt (concatChunks src st._bufsz
      (readerAt src st._bufsz (len * st.Config.multisample)).pulled) k) := ⟨_, rfl⟩
  rw [← hg] at havg hbufq hqle hS hsle
  have hgs : ∀ i, (∑ j ∈ Finset.range st.Config.multisample, g (i * st.Config.multisample + j))
      < WORD := by
    intro i
    have h1 : (∑ j ∈ Finset.range st.Config.multisample, g (i * st.Config.multisample + j))
        ≤ st.Config.multisample * 32767 := by
      have := Finset.sum_le_card_nsmul (Finset.range st.Config.multisample)
        (fun j => g (i * st.Config.multisample + j)) 32767
        (fun j _ => by rw [hg]; exact hcal _ (codeAt_lt _ _))
      rwa [Finset.card_range, smul_eq_mul] at this
    unfold WORD
    omega
  have hgm : ∀ i, groupMean g st.Config.multisample i
      = (∑ j ∈ Finset.range st.Config.multisample, g (i * st.Config.multisample + j))
          / st.Config.multisample := by
    intro i
    unfold groupMean
    rw [Nat.mod_eq_of_lt (hgs i)]
  have hQ : (∑ i ∈ Finset.range len, groupMean g st.Config.multisample i) < WORD := by
    unfold WORD
    omega
  have havg' : a.avg = ∑ i ∈ Finset.range len, groupMean g st.Config.multisample i := by
    rw [havg]
    exact Nat.mod_eq_of_lt hQ
  have hzle : a.avg / len ≤ 32767 := by
    rw [havg']; exact Nat.div_le_of_le_mul hsle
  refine ⟨_, a, hloop, fun i hi => ?_, ?_, ?_, fun hmode => ?_, fun hmode hl => ?_⟩
  · have hb := hbufq i hi
    have hq := hqle i
    rw [hgm i] at hb hq
    have hlt := hgs i
    rw [hg] at hb hq hlt
    refine ⟨hlt, hb, ?_, ?_⟩
    · rw [hb]; exact Int.natCast_nonneg _
    · rw [hb]; exact_mod_cast hq
  · rw [hS]
    have : ((∑ i ∈ Finset.range len, groupMean g st.Config.multisample i : Nat) : Int)
        < ((WORD : Nat) : Int) := by exact_mod_cast hQ
    simpa [WORD] using this
  · rw [hS, havg']
  · exact ⟨_, Collect_dc_of_loop hmode hloop, fun i _ => rfl⟩
  · have hne : a.numread ≠ 0 := by rw [hnum]; omega
    refine ⟨_, Collect_ac_of_loop hmode hloop hne, ?_, ?_, ?_⟩
    · show toSample ((a.avg / a.numread : Nat) : Int) = _
      rw [hnum, toSample_natCast _ hzle, hS, ← havg', Int.natCast_div]
    · show 0 ≤ toSample ((a.avg / a.numread : Nat) : Int)
      rw [hnum, toSample_natCast _ hzle]
      exact Int.natCast_nonneg _
    · show toSample ((a.avg / a.numread : Nat) : Int) ≤ 32767
      rw [hnum, toSample_natCast _ hzle]
      exact_mod_cast hzle


/-- Witness for C17: AC mode, averaging factor 2, three outputs, the codes 1, 2, 3, 4095
calibrated to as many millivolts. -/
theorem no_accumulator_wrap_witness :
    1 ≤ (stWith SamplerMode.SMODE_AC 2 8).Config.multisample ∧
    (stWith SamplerMode.SMODE_AC 2 8).Config.multisample ≤ 65536 ∧ 3 ≤ 65536 ∧
    (∀ code, code < 4096 → calOf hwUnit (stWith SamplerMode.SMODE_AC 2 8) code ≤ 32767) ∧
    EvenChunks srcRamp (stWith SamplerMode.SMODE_AC 2 8)._bufsz ∧
    3 * (stWith SamplerMode.SMODE_AC 2 8).Config.multisample ≤ 6 ∧
    ∃ r a,
      collectLoop (calOf hwUnit (stWith SamplerMode.SMODE_AC 2 8)) srcRamp
        (stWith SamplerMode.SMODE_AC 2 8)._bufsz (stWith SamplerMode.SMODE_AC 2 8).Config.multisample
        3 6 ⟨0, 0, [], 0, 0⟩ ⟨0, 0, 0, 0, fun _ => 7⟩ = some (r, a) ∧
      (∀ i, i < 3 →
        (∑ j ∈ Finset.range (stWith SamplerMode.SMODE_AC 2 8).Config.multisample,
          calOf hwUnit (stWith SamplerMode.SMODE_AC 2 8)
            (codeAt (concatChunks srcRamp (stWith SamplerMode.SMODE_AC 2 8)._bufsz r.pulled)
              (i * (stWith SamplerMode.SMODE_AC 2 8).Config.multisample + j))) < 2 ^ 32 ∧
        a.Buffer i = (((∑ j ∈ Finset.range (stWith SamplerMode.SMODE_AC 2 8).Config.multisample,
          calOf hwUnit (stWith SamplerMode.SMODE_AC 2 8)
            (codeAt (concatChunks srcRamp (stWith SamplerMode.SMODE_AC 2 8)._bufsz r.pulled)
              (i * (stWith SamplerMode.SMODE_AC 2 8).Config.multisample + j)))
            / (stWith SamplerMode.SMODE_AC 2 8).Config.multisample : Nat) : Int) ∧
        0 ≤ a.Buffer i ∧ a.Buffer i ≤ 32767) ∧
      (∑ i ∈ Finset.range 3, a.Buffer i) < 2 ^ 32 ∧
      (a.avg : Int) = ∑ i ∈ Finset.range 3, a.Buffer i ∧
      ((stWith SamplerMode.SMODE_AC 2 8).Config.mode = SamplerMode.SMODE_DC →
        ∃ res, Collect hwUnit srcRamp 6 (stWith SamplerMode.SMODE_AC 2 8) (fun _ => 7) 3 = some res ∧
          ∀ i, i < 3 → res.Buffer i = a.Buffer i) ∧
      ((stWith SamplerMode.SMODE_AC 2 8).Config.mode = SamplerMode.SMODE_AC → 1 ≤ 3 →
        ∃ res, Collect hwUnit srcRamp 6 (stWith SamplerMode.SMODE_AC 2 8) (fun _ => 7) 3 = some res ∧
          res.st.AcZero = (∑ i ∈ Finset.range 3, a.Buffer i) / ((3 : Nat) : Int) ∧
          0 ≤ res.st.AcZero ∧ res.st.AcZero ≤ 32767) :=
  ⟨by decide, by decide, by decide, fun code h => by show code ≤ 32767; omega,
    evenChunks_srcRamp _, by decide,
    no_accumulator_wrap hwUnit srcRamp 6 (stWith SamplerMode.SMODE_AC 2 8) (fun _ => 7) 3
      (by decide) (by decide) (by decide) (fun code h => by show code ≤ 32767; omega)
      (evenChunks_srcRamp _) (by decide)⟩

/-- C14: after `Collect` in AC mode with `len >= 1`, the calibrated readings of the 12-bit
codes being signed 16-bit millivolts (at most 32767 mV), `Collect` returns (fuel `len * m`
suffices) and, when the grand sum of the emitted samples is below `2^32` (no overflow of
`avg`), the sum of the `len` output samples lies in `[0, len)`, so their integer-truncated
mean is 0. -/
theorem collect_ac_zero_mean (hw : Hw) (src : RawSource) (fuel : Nat) (st : ESPSampler)
    (B : Nat → Int) (len : Nat)
    (hmode : st.Config.mode = SamplerMode.SMODE_AC) (hlen : 1 ≤ len)
    (hm : 1 ≤ st.Config.multisample) (hsrc : EvenChunks src st._bufsz)
    (hfuel : len * st.Config.multisample ≤ fuel)
    (hcal : ∀ code, code < 4096 → calOf hw st code ≤ 32767) :
    ∃ r a res,
      collectLoop (calOf hw st) src st._bufsz st.Config.multisample len fuel
        ⟨0, 0, [], 0, 0⟩ ⟨0, 0, 0, 0, B⟩ = some (r, a) ∧
      Collect hw src fuel st B len = some res ∧
      ((∑ i ∈ Finset.range len, a.Buffer i) < 2 ^ 32 →
        0 ≤ ∑ i ∈ Finset.range len, res.Buffer i ∧
        (∑ i ∈ Finset.range len, res.Buffer i) < (len : Int) ∧
        (∑ i ∈ Finset.range len, res.Buffer i) / (len : Int) = 0) := by
  obtain ⟨a, hloop, hnum, havg, hbufq, hqle, hS, hsle⟩ := collectLoop_exact (calOf hw st) src
    st._bufsz st.Config.multisample len fuel B hm hsrc hfuel hcal
  obtain ⟨g, hg⟩ : ∃ g : Nat → Nat, g = fun k => calOf hw st (codeAt (concatChunks src st._bufsz
      (readerAt src st._bufsz (len * st.Config.multisample)).pulled) k) := ⟨_, rfl⟩
  rw [← hg] at havg hbufq hqle hS hsle
  have hne : a.numread ≠ 0 := by rw [hnum]; omega
  refine ⟨_, a, _, hloop, Collect_ac_of_loop hmode hloop hne, fun hlt => ?_⟩
  rw [hS] at hlt
  have hlt' : (∑ i ∈ Finset.range len, groupMean g st.Config.multisample i) < WORD := by
    unfold WORD
    exact_mod_cast hlt
  have havg' : a.avg = ∑ i ∈ Finset.range len, groupMean g st.Config.multisample i := by
    rw [havg]
    exact Nat.mod_eq_of_lt hlt'
  have hzle : a.avg / len ≤ 32767 := by
    rw [havg']; exact Nat.div_le_of_le_mul hsle
  have hout : ∀ i, i < len →
      centerLoop (toSample ((a.avg / a.numread : Nat) : Int)) a.numread a.Buffer i
        = (groupMean g st.Config.multisample i : Int) - ((a.avg / len : Nat) : Int) := by
    intro i hi
    rw [centerLoop_apply, hnum, if_pos hi, toSample_natCast _ hzle, hbufq i hi]
    exact toSample_sub_natCast _ _ (hqle i) hzle
  have hsum : (∑ i ∈ Finset.range len,
      centerLoop (toSample ((a.avg / a.numread : Nat) : Int)) a.numread a.Buffer i)
        = ((a.avg % len : Nat) : Int) := by
    rw [Finset.sum_congr rfl (fun i hi => hout i (Finset.mem_range.mp hi)),
      Finset.sum_sub_distrib, Finset.sum_const, Finset.card_range, nsmul_eq_mul,
      ← Nat.cast_sum, ← havg']
    have hdm := congrArg (Nat.cast : Nat → Int) (Nat.div_add_mod a.avg len)
    push_cast at hdm ⊢
    linarith
  have hmod : a.avg % len < len := Nat.mod_lt _ (by omega)
  show 0 ≤ (∑ i ∈ Finset.range len,
      centerLoop (toSample ((a.avg / a.numread : Nat) : Int)) a.numread a.Buffer i) ∧
    (∑ i ∈ Finset.range len,
      centerLoop (toSample ((a.avg / a.numread : Nat) : Int)) a.numread a.Buffer i) < (len : Int) ∧
    (∑ i ∈ Finset.range len,
      centerLoop (toSample ((a.avg / a.numread : Nat) : Int)) a.numread a.Buffer i) / (len : Int) = 0
  rw [hsum]
  refine ⟨Int.natCast_nonneg _, by exact_mod_cast hmod, ?_⟩
  exact Int.ediv_eq_zero_of_lt (Int.natCast_nonneg _) (by exact_mod_cast hmod)


/-- Witness for C14: AC mode, averaging factor 2, three outputs, the codes 1, 2, 3, 4095: the
emitted samples 1, 2049, 1 sum to 2051, and the outputs -682, 1366, -682 sum to 2. -/
theorem collect_ac_zero_mean_witness :
    (stWith SamplerMode.SMODE_AC 2 8).Config.mode = SamplerMode.SMODE_AC ∧ 1 ≤ 3 ∧
    1 ≤ (stWith SamplerMode.SMODE_AC 2 8).Config.multisample ∧
    EvenChunks srcRamp (stWith SamplerMode.SMODE_AC 2 8)._bufsz ∧
    3 * (stWith SamplerMode.SMODE_AC 2 8).Config.multisample ≤ 6 ∧
    (∀ code, code < 4096 → calOf hwUnit (stWith SamplerMode.SMODE_AC 2 8) code ≤ 32767) ∧
    ∃ r a res,
      collectLoop (calOf hwUnit (stWith SamplerMode.SMODE_AC 2 8)) srcRamp
        (stWith SamplerMode.SMODE_AC 2 8)._bufsz (stWith SamplerMode.SMODE_AC 2 8).Config.multisample
        3 6 ⟨0, 0, [], 0, 0⟩ ⟨0, 0, 0, 0, fun _ => 7⟩ = some (r, a) ∧
      Collect hwUnit srcRamp 6 (stWith SamplerMode.SMODE_AC 2 8) (fun _ => 7) 3 = some res ∧
      (∑ i ∈ Finset.range 3, a.Buffer i) < 2 ^ 32 ∧
      0 ≤ ∑ i ∈ Finset.range 3, res.Buffer i ∧
      (∑ i ∈ Finset.range 3, res.Buffer i) < ((3 : Nat) : Int) ∧
      (∑ i ∈ Finset.range 3, res.Buffer i) / ((3 : Nat) : Int) = 0 := by
  refine ⟨rfl, by decide, by decide, evenChunks_srcRamp _, by decide,
    fun code h => by show code ≤ 32767; omega, ?_⟩
  obtain ⟨r, a, res, hloop, hres, h⟩ := collect_ac_zero_mean hwUnit srcRamp 6
    (stWith SamplerMode.SMODE_AC 2 8) (fun _ => 7) 3 rfl (by decide) (by decide)
    (evenChunks_srcRamp _) (by decide) (fun code h => by show code ≤ 32767; omega)
  have hb : ∀ i, (collectLoop (calOf hwUnit (stWith SamplerMode.SMODE_AC 2 8)) srcRamp
      (stWith SamplerMode.SMODE_AC 2 8)._bufsz (stWith SamplerMode.SMODE_AC 2 8).Config.multisample
      3 6 ⟨0, 0, [], 0, 0⟩ ⟨0, 0, 0, 0, fun _ => 7⟩).map (fun ra => ra.2.Buffer i)
        = some (a.Buffer i) := fun i => by rw [hloop]; rfl
  have h0 : a.Buffer 0 = 1 := Option.some.inj ((hb 0).symm.trans (by decide))
  have h1 : a.Buffer 1 = 2049 := Option.some.inj ((hb 1).symm.trans (by decide))
  have h2 : a.Buffer 2 = 1 := Option.some.inj ((hb 2).symm.trans (by decide))
  have hlt : (∑ i ∈ Finset.range 3, a.Buffer i) < 2 ^ 32 := by
    rw [Finset.sum_range_succ, Finset.sum_range_succ, Finset.sum_range_one, h0, h1, h2]
    norm_num
  exact ⟨r, a, res, hloop, hres, hlt, h hlt⟩

/-! ## `Measure` -/

theorem TIME_MIN_neg (w : time_t) : TIME_MIN w < 0 := by
  cases w <;> decide

theorem measureLoop_run (cal : Nat → Nat) (adc : Nat → Nat) (tmin : Int) (htmin : tmin < 0) :
    ∀ N fuel (d : Int) rawadc i k, N + 1 ≤ fuel → max d 1 = ((N + 1 : Nat) : Int) →
      tmin < d → i + N + 1 ≤ INT_MAX →
      measureLoop cal adc tmin fuel d rawadc i k
        = some ((rawadc + ∑ j ∈ Finset.range (N + 1), cal (adc (k + j))) % WORD,
            i + N + 1, k + N + 1) := by
  intro N
  induction N with
  | zero =>
    intro fuel d rawadc i k hfuel hmax hmin hi
    obtain ⟨f, rfl⟩ : ∃ f, fuel = f + 1 := ⟨fuel - 1, by omega⟩
    unfold INT_MAX at hi
    have c1 : ¬ INT_MAX ≤ i := by unfold INT_MAX; omega
    have c2 : ¬ d ≤ tmin := by omega
    have c3 : ¬ d - 1 > 0 := by omega
    simp only [measureLoop, c1, c2, c3, if_false]
    simp
  | succ N ih =>
    intro fuel d rawadc i k hfuel hmax hmin hi
    obtain ⟨f, rfl⟩ : ∃ f, fuel = f + 1 := ⟨fuel - 1, by omega⟩
    unfold INT_MAX at hi
    have c1 : ¬ INT_MAX ≤ i := by unfold INT_MAX; omega
    have c2 : ¬ d ≤ tmin := by omega
    have c3 : d - 1 > 0 := by omega
    have hrec := ih f (d - 1) ((rawadc + cal (adc k)) % WORD) (i + 1) (k + 1) (by omega)
      (by omega) (by omega) (by unfold INT_MAX; omega)
    simp only [measureLoop, c1, c2, c3, if_false, if_true]
    rw [hrec, Nat.mod_add_mod, Finset.sum_range_succ' _ (N + 1)]
    have e : (∑ j ∈ Finset.range (N + 1), cal (adc (k + 1 + j)))
        = ∑ j ∈ Finset.range (N + 1), cal (adc (k + (j + 1))) :=
      Finset.sum_congr rfl (fun j _ => by rw [Nat.add_assoc k 1 j, Nat.add_comm 1 j])
    rw [e]
    have e2 : rawadc + cal (adc k) + ∑ j ∈ Finset.range (N + 1), cal (adc (k + (j + 1)))
        = rawadc + (∑ j ∈ Finset.range (N + 1), cal (adc (k + (j + 1))) + cal (adc (k + 0))) := by
      simp only [Nat.add_zero]; omega
    rw [e2]
    have e3 : i + 1 + N + 1 = i + (N + 1) + 1 := by omega
    have e4 : k + 1 + N + 1 = k + (N + 1) + 1 := by omega
    rw [e3, e4]

theorem measureLoop_int_overflow (cal : Nat → Nat) (adc : Nat → Nat) (tmin : Int) :
    ∀ fuel (d : Int) (rawadc i k : Nat), (INT_MAX : Int) < max d 1 + (i : Int) →
      measureLoop cal adc tmin fuel d rawadc i k = none := by
  intro fuel
  induction fuel with
  | zero => intro d rawadc i k _; rfl
  | succ f ih =>
    intro d rawadc i k h
    unfold measureLoop
    split
    · rfl
    · rename_i c1
      split
      · rfl
      · split
        · rename_i c3
          apply ih
          push_cast
          omega
        · rename_i c3
          exfalso
          unfold INT_MAX at h c1
          omega

theorem measureLoop_time_overflow (cal : Nat → Nat) (adc : Nat → Nat) (tmin : Int)
    (fuel rawadc i k : Nat) : measureLoop cal adc tmin fuel tmin rawadc i k = none := by
  cases fuel with
  | zero => rfl
  | succ f =>
    unfold measureLoop
    split
    · rfl
    · simp

theorem Measure_idle (hw : Hw) (adc : Nat → Nat) (fuel : Nat) (st : ESPSampler) (pin d : Int)
    (hidle : st._running = false) :
    Measure hw adc fuel st pin d
      = (measureLoop (calOf hw (adc1_setup hw st pin).2) adc (TIME_MIN hw.time) fuel d 0 0 1).map
          (fun r => ⟨toSample ((r.1 / r.2.1 : Nat) : Int), r.2.2, (adc1_setup hw st pin).2⟩) := by
  unfold Measure
  rw [hidle]
  cases measureLoop (calOf hw (adc1_setup hw st pin).2) adc (TIME_MIN hw.time) fuel d 0 0 1 <;> rfl

/-- A `Measure` call in state Idle over `d >= 1` ticks. -/
theorem Measure_spec (hw : Hw) (adc : Nat → Nat) (fuel : Nat) (st : ESPSampler) (pin : Int)
    (d : Nat) (hidle : st._running = false) (hd : 1 ≤ d) (hd2 : d ≤ INT_MAX) (hfuel : d ≤ fuel) :
    Measure hw adc fuel st pin (d : Int)
      = some ⟨toSample (((∑ j ∈ Finset.range d,
          calOf hw (adc1_setup hw st pin).2 (adc (1 + j))) % WORD / d : Nat) : Int),
          d + 1, (adc1_setup hw st pin).2⟩ := by
  obtain ⟨N, rfl⟩ : ∃ N, d = N + 1 := ⟨d - 1, by omega⟩
  have hneg := TIME_MIN_neg hw.time
  rw [Measure_idle hw adc fuel st pin _ hidle,
    measureLoop_run (calOf hw (adc1_setup hw st pin).2) adc (TIME_MIN hw.time) hneg N fuel
      ((N + 1 : Nat) : Int) 0 0 1 hfuel (by push_cast; omega) (by push_cast; omega) (by omega)]
  simp only [Option.map_some', Nat.zero_add]
  have e : 1 + N + 1 = N + 1 + 1 := by omega
  rw [e]


/-- C13 (amended): in state Idle, for every number of ticks `d` with `1 <= d <= INT_MAX`,
`Measure(pin, d)` returns (fuel `d` suffices) after exactly `d + 1` raw reads, the one
discarded inside `adc1_setup` and then one per tick, and its value is the mean of the `d`
calibrated loop readings as the 32-bit accumulator computes it,
`floor((sum mod 2^32) / d)` narrowed to 16 bits; it is `floor(sum / d)` narrowed whenever
that sum is below `2^32`. -/
theorem measure_mean (hw : Hw) (adc : Nat → Nat) (fuel : Nat) (st : ESPSampler) (pin : Int)
    (d : Nat) (hidle : st._running = false) (hd : 1 ≤ d) (hd2 : d ≤ INT_MAX) (hfuel : d ≤ fuel) :
    ∃ res, Measure hw adc fuel st pin (d : Int) = some res ∧
      res.rawReads = d + 1 ∧
      res.st = (adc1_setup hw st pin).2 ∧
      res.value = toSample (((∑ j ∈ Finset.range d,
          calOf hw (adc1_setup hw st pin).2 (adc (1 + j))) % WORD / d : Nat) : Int) ∧
      ((∑ j ∈ Finset.range d, calOf hw (adc1_setup hw st pin).2 (adc (1 + j))) < WORD →
        res.value = toSample (((∑ j ∈ Finset.range d,
          calOf hw (adc1_setup hw st pin).2 (adc (1 + j))) / d : Nat) : Int)) := by
  refine ⟨_, Measure_spec hw adc fuel st pin d hidle hd hd2 hfuel, rfl, rfl, rfl, fun hlt => ?_⟩
  show toSample _ = _
  rw [Nat.mod_eq_of_lt hlt]

/-- Witness for C13: the fresh engine, pin 39, three ticks, every raw read returning 4095:
four raw reads, value 4095. -/
theorem measure_mean_witness :
    ESPSampler.init._running = false ∧ 1 ≤ 3 ∧ 3 ≤ INT_MAX ∧ 3 ≤ 3 ∧
    (Measure hwUnit adcFull 3 ESPSampler.init 39 ((3 : Nat) : Int)).map
      (fun r => (r.value, r.rawReads)) = some (4095, 4) ∧
    ∃ res, Measure hwUnit adcFull 3 ESPSampler.init 39 ((3 : Nat) : Int) = some res ∧
      res.rawReads = 3 + 1 ∧
      res.st = (adc1_setup hwUnit ESPSampler.init 39).2 ∧
      res.value = toSample (((∑ j ∈ Finset.range 3,
          calOf hwUnit (adc1_setup hwUnit ESPSampler.init 39).2 (adcFull (1 + j))) % WORD / 3
            : Nat) : Int) ∧
      ((∑ j ∈ Finset.range 3,
          calOf hwUnit (adc1_setup hwUnit ESPSampler.init 39).2 (adcFull (1 + j))) < WORD →
        res.value = toSample (((∑ j ∈ Finset.range 3,
          calOf hwUnit (adc1_setup hwUnit ESPSampler.init 39).2 (adcFull (1 + j))) / 3
            : Nat) : Int)) :=
  ⟨rfl, by decide, by decide, by decide, by decide,
    measure_mean hwUnit adcFull 3 ESPSampler.init 39 3 rfl (by decide) (by decide) (by decide)⟩

/-- Counterexample to C13 as stated, three inputs on the fresh engine, every raw read
returning 4095 (calibrated to 4095 mV).  First, `d = 1`: `Measure` makes two raw reads, not
one.  Second, `d = 1048833`: the sum `1048833 * 4095` wraps the 32-bit accumulator `rawadc`
to 3839 and `Measure` returns 0, while the mean is 4095.  Third, `d = 2^31`: the `int`
counter `i` overflows before the loop can end, so no amount of fuel yields a result. -/
theorem measure_mean_fails :
    (Measure hwUnit adcFull 1 ESPSampler.init 39 1).map (fun r => (r.value, r.rawReads))
      = some (4095, 2) ∧
    (∃ res, Measure hwUnit adcFull 1048833 ESPSampler.init 39 ((1048833 : Nat) : Int) = some res ∧
      res.value = 0 ∧
      (∑ j ∈ Finset.range 1048833,
        calOf hwUnit (adc1_setup hwUnit ESPSampler.init 39).2 (adcFull (1 + j))) / 1048833 = 4095) ∧
    (∀ fuel, Measure hwUnit adcFull fuel ESPSampler.init 39 2147483648 = none) := by
  refine ⟨by decide, ?_, fun fuel => ?_⟩
  · have hsum : (∑ j ∈ Finset.range 1048833,
        calOf hwUnit (adc1_setup hwUnit ESPSampler.init 39).2 (adcFull (1 + j)))
        = 1048833 * 4095 := by
      have e : (∑ j ∈ Finset.range 1048833,
          calOf hwUnit (adc1_setup hwUnit ESPSampler.init 39).2 (adcFull (1 + j)))
          = ∑ _j ∈ Finset.range 1048833, 4095 := Finset.sum_congr rfl (fun _ _ => rfl)
      rw [e, Finset.sum_const, Finset.card_range, smul_eq_mul]
    refine ⟨_, Measure_spec hwUnit adcFull 1048833 ESPSampler.init 39 1048833 rfl (by decide)
      (by decide) (by decide), ?_, ?_⟩
    · show toSample _ = 0
      rw [hsum]
      decide
    · rw [hsum]
  · rw [Measure_idle hwUnit adcFull fuel ESPSampler.init 39 _ rfl,
      measureLoop_int_overflow _ _ _ fuel 2147483648 0 0 1 (by decide)]
    rfl

/-- C19 (amended): in state Idle, for every duration `d` above the smallest `time_t` value and
at most `INT_MAX`, `Measure` returns (fuel `max(d, 1)` suffices) and the iteration counter
used as divisor is `max(d, 1) >= 1`; for `d <= 0` in that range `Measure` makes two raw
reads, the one discarded inside `adc1_setup` and exactly one in its loop, and returns the
calibrated value of that single loop reading narrowed to 16 bits, which is that value itself
when it is at most 32767. -/
theorem measure_divisor (hw : Hw) (adc : Nat → Nat) (fuel : Nat) (st : ESPSampler)
    (pin d : Int) (hidle : st._running = false)
    (hmin : TIME_MIN hw.time < d) (hmax : d ≤ (INT_MAX : Int))
    (hfuel : max d 1 ≤ (fuel : Int)) :
    ∃ x, measureLoop (calOf hw (adc1_setup hw st pin).2) adc (TIME_MIN hw.time) fuel d 0 0 1
        = some x ∧
      (x.2.1 : Int) = max d 1 ∧ 1 ≤ x.2.1 ∧
      Measure hw adc fuel st pin d
        = some ⟨toSample ((x.1 / x.2.1 : Nat) : Int), x.2.2, (adc1_setup hw st pin).2⟩ ∧
      (d ≤ 0 →
        x.2.2 = 2 ∧
        Measure hw adc fuel st pin d
          = some ⟨toSample ((calOf hw (adc1_setup hw st pin).2 (adc 1) % WORD : Nat) : Int), 2,
              (adc1_setup hw st pin).2⟩ ∧
        (calOf hw (adc1_setup hw st pin).2 (adc 1) ≤ 32767 →
          Measure hw adc fuel st pin d
            = some ⟨(calOf hw (adc1_setup hw st pin).2 (adc 1) : Nat), 2,
                (adc1_setup hw st pin).2⟩)) := by
  obtain ⟨N, hN⟩ : ∃ N : Nat, max d 1 = ((N + 1 : Nat) : Int) :=
    ⟨(max d 1 - 1).toNat, by push_cast; omega⟩
  have hrun := measureLoop_run (calOf hw (adc1_setup hw st pin).2) adc (TIME_MIN hw.time)
    (TIME_MIN_neg hw.time) N fuel d 0 0 1 (by omega) hN hmin
    (by unfold INT_MAX at hmax ⊢; push_cast at hN hmax; omega)
  have hM : Measure hw adc fuel st pin d
      = some ⟨toSample ((((0 + ∑ j ∈ Finset.range (N + 1),
          calOf hw (adc1_setup hw st pin).2 (adc (1 + j))) % WORD) / (0 + N + 1) : Nat) : Int),
          1 + N + 1, (adc1_setup hw st pin).2⟩ := by
    rw [Measure_idle hw adc fuel st pin d hidle, hrun]
    rfl
  refine ⟨_, hrun, ?_, ?_, hM, fun hd => ?_⟩
  · show ((0 + N + 1 : Nat) : Int) = max d 1
    rw [hN]
    push_cast
    omega
  · show 1 ≤ 0 + N + 1
    omega
  · have hN0 : N = 0 := by push_cast at hN; omega
    subst hN0
    have hM2 : Measure hw adc fuel st pin d
        = some ⟨toSample ((calOf hw (adc1_setup hw st pin).2 (adc 1) % WORD : Nat) : Int), 2,
            (adc1_setup hw st pin).2⟩ := by
      rw [hM]
      simp
    refine ⟨rfl, hM2, fun hle => ?_⟩
    rw [hM2]
    have hw32 : calOf hw (adc1_setup hw st pin).2 (adc 1) % WORD
        = calOf hw (adc1_setup hw st pin).2 (adc 1) :=
      Nat.mod_eq_of_lt (by unfold WORD; omega)
    rw [hw32, toSample_natCast _ hle]

/-- Witness for C19: the fresh engine on the 32-bit `time_t`, pin 39, `d = 0`, every raw read
returning 4095: the divisor is 1, two raw reads are made and the value is 4095. -/
theorem measure_divisor_witness :
    ESPSampler.init._running = false ∧ TIME_MIN hwLegacy.time < 0 ∧ (0 : Int) ≤ (INT_MAX : Int) ∧
    max (0 : Int) 1 ≤ ((1 : Nat) : Int) ∧
    (Measure hwLegacy adcFull 1 ESPSampler.init 39 0).map (fun r => (r.value, r.rawReads))
      = some (4095, 2) ∧
    ∃ x, measureLoop (calOf hwLegacy (adc1_setup hwLegacy ESPSampler.init 39).2) adcFull
        (TIME_MIN hwLegacy.time) 1 0 0 0 1 = some x ∧
      (x.2.1 : Int) = max 0 1 ∧ 1 ≤ x.2.1 ∧
      Measure hwLegacy adcFull 1 ESPSampler.init 39 0
        = some ⟨toSample ((x.1 / x.2.1 : Nat) : Int), x.2.2,
            (adc1_setup hwLegacy ESPSampler.init 39).2⟩ ∧
      ((0 : Int) ≤ 0 →
        x.2.2 = 2 ∧
        Measure hwLegacy adcFull 1 ESPSampler.init 39 0
          = some ⟨toSample ((calOf hwLegacy (adc1_setup hwLegacy ESPSampler.init 39).2
              (adcFull 1) % WORD : Nat) : Int), 2, (adc1_setup hwLegacy ESPSampler.init 39).2⟩ ∧
        (calOf hwLegacy (adc1_setup hwLegacy ESPSampler.init 39).2 (adcFull 1) ≤ 32767 →
          Measure hwLegacy adcFull 1 ESPSampler.init 39 0
            = some ⟨(calOf hwLegacy (adc1_setup hwLegacy ESPSampler.init 39).2 (adcFull 1) : Nat),
                2, (adc1_setup hwLegacy ESPSampler.init 39).2⟩)) :=
  ⟨rfl, by decide, by decide, by decide, by decide,
    measure_divisor hwLegacy adcFull 1 ESPSampler.init 39 0 rfl (by decide) (by decide)
      (by decide)⟩

/-- Counterexample to C19 as stated, on the fresh engine, every raw read returning 4095.
First, `d = 0`: `Measure` makes two raw reads (one discarded inside `adc1_setup`, one in
the loop), not exactly one.  Second, `d = 2^32` on the 64-bit `time_t`: `max(d, 1)` is above
`INT_MAX`, the `int` counter `i` overflows before the loop can end, and no amount of fuel
yields a result, so the divisor is not `max(d, 1)`.  Third, `d` the smallest `time_t`, of
either width: `duration--` overflows, and again no amount of fuel yields a result. -/
theorem measure_divisor_fails :
    (Measure hwUnit adcFull 1 ESPSampler.init 39 0).map (fun r => r.rawReads) = some 2 ∧
    ((INT_MAX : Int) < max 4294967296 1 ∧
      ∀ fuel, Measure hwUnit adcFull fuel ESPSampler.init 39 4294967296 = none) ∧
    (∀ fuel, Measure hwUnit adcFull fuel ESPSampler.init 39 (-9223372036854775808) = none) ∧
    (∀ fuel, Measure hwLegacy adcFull fuel ESPSampler.init 39 (-2147483648) = none) := by
  refine ⟨by decide, ⟨by decide, fun fuel => ?_⟩, fun fuel => ?_, fun fuel => ?_⟩
  · rw [Measure_idle hwUnit adcFull fuel ESPSampler.init 39 _ rfl,
      measureLoop_int_overflow _ _ _ fuel 4294967296 0 0 1 (by decide)]
    rfl
  · rw [Measure_idle hwUnit adcFull fuel ESPSampler.init 39 _ rfl]
    show (measureLoop _ adcFull (-9223372036854775808) fuel (-9223372036854775808) 0 0 1).map _
      = none
    rw [measureLoop_time_overflow]
    rfl
  · rw [Measure_idle hwLegacy adcFull fuel ESPSampler.init 39 _ rfl]
    show (measureLoop _ adcFull (-2147483648) fuel (-2147483648) 0 0 1).map _ = none
    rw [measureLoop_time_overflow]
    rfl

end ESP32Sampler
